import Mathlib

/-!
The chat-service: the conversation window and the streaming turn.

A shallow embedding of the Go packages `entities` (`model.go`, `message.go`,
`chat.go`) and `chatcompletionstream` (`completion.go`), followed by the
properties of the token-budget engine and of the turn orchestration.

Conventions of the embedding.

* Go `int` is modelled by `GoInt` below: an integer of the 64-bit range, whose
  addition wraps around modulo `2^64` as the Go addition does.
* Go `float32` is modelled by `Float32` below: a NaN, the two infinities, or a
  finite value given by the rational it denotes. The code only compares
  temperatures with the constants `0` and `2`.
* Pointers (`*Model`, `*Message`, `*Chat`, `*ChatConfig`) are modelled by the
  values they point to; a nil pointer is outside the embedding. Messages are
  never written after construction, so sharing is not observable.
* A Go method that mutates its receiver returns the new receiver. A run ends
  in one of three ways, see `Result`: a value, a returned `error` (its text),
  or a runtime panic.
* Identifiers from `uuid.New()` and instants from `time.Now()` are inputs.
-/

namespace entities

/-- How a Go call ends: it returns a value, it returns a non-nil `error`
(carrying the text given to `errors.New`), or the runtime panics. -/
inductive Result (α : Type) where
  | ok (value : α)
  | error (err : String)
  | panic (msg : String)
deriving DecidableEq, Repr

/-- The reduction of an integer to the range of a 64-bit Go `int`, by
two-complement wrap-around: the value congruent to `x` modulo `2^64` that lies
in `[-2^63, 2^63)`. -/
def wrapInt (x : Int) : Int :=
  (x + 9223372036854775808) % 18446744073709551616 - 9223372036854775808

/-- A Go `int` on a 64-bit platform: an integer in `[-2^63, 2^63)`. -/
structure GoInt where
  val : Int
  inRange : -9223372036854775808 ≤ val ∧ val < 9223372036854775808
deriving DecidableEq

/-- The Go `int` that an integer wraps to. -/
def GoInt.wrap (x : Int) : GoInt :=
  ⟨wrapInt x, by unfold wrapInt; omega⟩

/-- The Go operator `+` on `int`: the sum, wrapped around on overflow. -/
instance : Add GoInt := ⟨fun a b => GoInt.wrap (a.val + b.val)⟩

instance (n : Nat) : OfNat GoInt n := ⟨GoInt.wrap n⟩

/-- The Go operators `<=` and `>=` on `int`. -/
instance : LE GoInt := ⟨fun a b => a.val ≤ b.val⟩

/-- The Go operators `<` and `>` on `int`. -/
instance : LT GoInt := ⟨fun a b => a.val < b.val⟩

instance (a b : GoInt) : Decidable (a ≤ b) := inferInstanceAs (Decidable (a.val ≤ b.val))

instance (a b : GoInt) : Decidable (a < b) := inferInstanceAs (Decidable (a.val < b.val))

instance : Repr GoInt := ⟨fun a n => reprPrec a.val n⟩

/-- A `float32`, as far as ordered comparison can observe it. -/
inductive Float32 where
  | nan
  | negInf
  | finite (q : ℚ)
  | posInf
deriving DecidableEq

/-- The Go operator `<` on `float32`: false as soon as one side is a NaN. -/
def Float32.lt : Float32 → Float32 → Bool
  | .nan, _ => false
  | _, .nan => false
  | _, .negInf => false
  | .negInf, _ => true
  | .posInf, _ => false
  | .finite _, .posInf => true
  | .finite a, .finite b => decide (a < b)

/-- An instant of `time.Time`: seconds and nanoseconds since the zero instant
(January 1, year 1, 00:00:00 UTC). -/
structure Time where
  sec : Int
  nsec : Nat
deriving DecidableEq, Repr

/-- `Time.IsZero`. -/
def Time.IsZero (t : Time) : Bool :=
  t.sec == 0 && t.nsec == 0

/-! ## model.go -/

structure Model where
  Name : String
  MaxTokens : GoInt
deriving DecidableEq, Repr

def NewModel (name : String) (maxTokens : GoInt) : Model :=
  { Name := name, MaxTokens := maxTokens }

def Model.GetMaxTokens (model : Model) : GoInt :=
  model.MaxTokens

def Model.GetModelName (model : Model) : String :=
  model.Name

/-! ## message.go -/

structure Message where
  ID : String
  Role : String
  Content : String
  Tokens : GoInt
  /-- The field `Model *Model`; `NewMessage` leaves it nil. -/
  Model : Option entities.Model
  CreatedAt : Time
deriving DecidableEq, Repr

/-- `Message.Validate`: `none` is the nil error. -/
def Message.Validate (message : Message) : Option String :=
  if message.Role ≠ "user" ∧ message.Role ≠ "system" ∧ message.Role ≠ "assistant" then
    some "invalid role"
  else if message.Content = "" then
    some "content is empty"
  else if message.CreatedAt.IsZero then
    some "invalid created at"
  else
    none

/-- `NewMessage`. The tokenizer `tiktoken_go.CountTokens`, the fresh
identifier and the clock reading are parameters. -/
def NewMessage (countTokens : String → String → GoInt) (id : String) (now : Time)
    (role content : String) (model : entities.Model) : Result Message :=
  let totalTokens := countTokens model.GetModelName content
  let message : Message :=
    { ID := id, Role := role, Tokens := totalTokens, Content := content,
      Model := none, CreatedAt := now }
  match message.Validate with
  | some err => .error err
  | none => .ok message

def Message.GetQtdTokens (m : Message) : GoInt :=
  m.Tokens

/-! ## chat.go -/

structure ChatConfig where
  Model : entities.Model
  Temperature : Float32
  TopP : Float32
  N : GoInt
  Stop : List String
  MaxTokens : GoInt
  PresencePenalty : Float32
  FrequencyPenalty : Float32
deriving DecidableEq

structure Chat where
  ID : String
  UserID : String
  InitialSystemMessage : Message
  Messages : List Message
  ErasedMessages : List Message
  Status : String
  TokenUsage : GoInt
  Config : ChatConfig
deriving DecidableEq

/-- `Chat.Validate`: `none` is the nil error. -/
def Chat.Validate (chat : Chat) : Option String :=
  if chat.UserID = "" then
    some "user id is empty"
  else if chat.Status ≠ "active" ∧ chat.Status ≠ "ended" then
    some "invalid status"
  else if chat.Config.Temperature.lt (.finite 0) || (Float32.finite 2).lt chat.Config.Temperature then
    some "invalid temperature"
  else
    none

/-- The accumulation of `RefreshTokenUsage`: start from `0` and add
`GetQtdTokens` of every message, front to back, with the wrapping addition of
Go `int`. -/
def tokenUsageOf (messages : List Message) : GoInt :=
  messages.foldl (fun usage message => usage + message.GetQtdTokens) 0

/-- `Chat.RefreshTokenUsage`. -/
def Chat.RefreshTokenUsage (chat : Chat) : Chat :=
  { chat with TokenUsage := tokenUsageOf chat.Messages }

/-- The `for` loop of `Chat.AddMessage`, on the three fields it writes:
`Messages`, `ErasedMessages` and `TokenUsage`. Each round either appends the
message, refreshes the usage and stops, or moves `Messages[0]` to
`ErasedMessages` and refreshes the usage; reading `Messages[0]` of an empty
slice is the runtime panic. The addition of the fit test is the wrapping
addition of Go `int`. The recursion is on `Messages`, which loses its head in
every round that continues. -/
def Chat.addMessageLoop (chat : Chat) (message : Message)
    (messages erasedMessages : List Message) (tokenUsage : GoInt) : Chat × Result Unit :=
  if chat.Config.Model.GetMaxTokens ≥ message.GetQtdTokens + tokenUsage then
    (Chat.RefreshTokenUsage
      { chat with Messages := messages ++ [message], ErasedMessages := erasedMessages,
                  TokenUsage := tokenUsage }, .ok ())
  else
    match messages with
    | [] =>
      ({ chat with Messages := [], ErasedMessages := erasedMessages, TokenUsage := tokenUsage },
        .panic "runtime error: index out of range [0] with length 0")
    | first :: rest =>
      Chat.addMessageLoop chat message rest (erasedMessages ++ [first]) (tokenUsageOf rest)

/-- `Chat.AddMessage`: the chat after the call and how the call ended. -/
def Chat.AddMessage (chat : Chat) (message : Message) : Chat × Result Unit :=
  if chat.Status = "ended" then
    (chat, .error "chat is ended. No more messages allowed")
  else
    chat.addMessageLoop message chat.Messages chat.ErasedMessages chat.TokenUsage

def Chat.GetMessages (chat : Chat) : List Message :=
  chat.Messages

def Chat.CountMessages (chat : Chat) : Int :=
  chat.Messages.length

/-- `Chat.End`. -/
def Chat.End (chat : Chat) : Chat :=
  { chat with Status := "ended" }

/-- `NewChat`. The identifier from `uuid.New()` is a parameter. The error
returned by `AddMessage` is dropped, as in the source; a panic is not. -/
def NewChat (id : String) (userID : String) (initialSystemMessage : Message)
    (chatConfig : ChatConfig) : Result Chat :=
  let chat : Chat :=
    { ID := id, UserID := userID, InitialSystemMessage := initialSystemMessage,
      Messages := [], ErasedMessages := [], Status := "active",
      Config := chatConfig, TokenUsage := 0 }
  match chat.AddMessage initialSystemMessage with
  | (_, .panic msg) => .panic msg
  | (chat, _) =>
    match chat.Validate with
    | some err => .error err
    | none => .ok chat

end entities

/-! ## gateway/chat.go -/

namespace gateway

/-- The interface `ChatGateway`, as the answers its three methods give during
one turn: `none` is the nil error, `Except.error` a non-nil one. A chat
returned without error is a non-nil chat. -/
structure ChatGateway where
  CreateChat : entities.Chat → Option String
  FindChatByID : String → Except String entities.Chat
  SaveChat : entities.Chat → Option String

end gateway

/-! ## chatCompletionStream/completion.go -/

namespace chatcompletionstream

open entities

structure ChatCompletionConfigInputDTO where
  Mode : String
  ModelMaxToken : GoInt
  Temperature : Float32
  TopP : Float32
  N : GoInt
  Stop : List String
  MaxTokens : GoInt
  PresencePenalty : Float32
  FrequencyPenalty : Float32
  InitialSystemMessage : String
deriving DecidableEq

structure ChatCompletionInputDTO where
  ChatID : String
  UserID : String
  UserMessage : String
  Config : ChatCompletionConfigInputDTO
deriving DecidableEq

structure ChatCompletionOutputDTO where
  ChatID : String
  UserID : String
  Content : String
deriving DecidableEq, Repr

/-- The fields of `openAI.ChatCompletionMessage` that the use case sets. -/
structure ChatCompletionMessage where
  Role : String
  Content : String
deriving DecidableEq, Repr

/-- The fields of `openAI.ChatCompletionRequest` that the use case sets. -/
structure ChatCompletionRequest where
  Model : String
  Messages : List ChatCompletionMessage
  MaxTokens : GoInt
  Temperature : Float32
  TopP : Float32
  N : GoInt
  Stop : List String
  PresencePenalty : Float32
  FrequencyPenalty : Float32
  Stream : Bool
deriving DecidableEq

/-- One value received from the completion stream: `Delta.Content` of each
of its `Choices`, in order. -/
structure ChatCompletionStreamResponse where
  Choices : List String
deriving DecidableEq, Repr

/-- What `Recv` answers once the responses are used up: `io.EOF`, or another
error. -/
inductive StreamEnd where
  | eof
  | failed (err : String)
deriving DecidableEq, Repr

/-- A completion stream: the responses `Recv` hands out one by one, then its
ending. -/
structure ChatCompletionStream where
  responses : List ChatCompletionStreamResponse
  ending : StreamEnd
deriving DecidableEq, Repr

/-- What the process reads from its surroundings during one turn: the
tokenizer, and the identifier and clock reading used at each construction
site (initial system message, new chat, user message, assistant message). -/
structure Runtime where
  CountTokens : String → String → GoInt
  systemMessageID : String
  systemMessageNow : Time
  newChatID : String
  userMessageID : String
  userMessageNow : Time
  assistantMessageID : String
  assistantMessageNow : Time

/-- The struct `ChatCompletionUseCase`: the gateway and, for the OpenAI
client, the answer of `CreateChatCompletionStream` to a request. The channel
`Stream` is the `Send` entries of the effect log. -/
structure ChatCompletionUseCase where
  ChatGateway : gateway.ChatGateway
  OpenAIClient : ChatCompletionRequest → Except String ChatCompletionStream

/-- What a turn does to its collaborators, in the order it happens. `Send` is
a value written to the channel `useCase.Stream`. -/
inductive Effect where
  | FindChatByID (chatID : String)
  | CreateChat (chat : Chat)
  | CreateChatCompletionStream (request : ChatCompletionRequest)
  | Send (result : ChatCompletionOutputDTO)
  | SaveChat (chat : Chat)
deriving DecidableEq

/-- `CreateNewChat`. -/
def CreateNewChat (rt : Runtime) (input : ChatCompletionInputDTO) : Result Chat :=
  let model := NewModel input.Config.Mode input.Config.MaxTokens
  let chatConfig : ChatConfig :=
    { Model := model,
      Temperature := input.Config.Temperature,
      TopP := input.Config.TopP,
      N := input.Config.N,
      Stop := input.Config.Stop,
      MaxTokens := input.Config.MaxTokens,
      PresencePenalty := input.Config.PresencePenalty,
      FrequencyPenalty := input.Config.FrequencyPenalty }
  match NewMessage rt.CountTokens rt.systemMessageID rt.systemMessageNow
      "system" input.Config.InitialSystemMessage model with
  | .panic msg => .panic msg
  | .error err => .error ("error creating initial message: " ++ err)
  | .ok initialMessage =>
    match NewChat rt.newChatID input.UserID initialMessage chatConfig with
    | .panic msg => .panic msg
    | .error err => .error ("error creating new chat: " ++ err)
    | .ok chat => .ok chat

/-- The projection loop of `Execute`: role and content of every message. -/
def projectMessages (messages : List Message) : List ChatCompletionMessage :=
  messages.map (fun message => { Role := message.Role, Content := message.Content })

/-- The receive loop of `Execute`, started with the text accumulated so far
in `fullResponse`: the values sent to the channel, and either the final text
(the stream ended with `io.EOF`) or the way the loop was left. A response
without choices makes `response.Choices[0]` panic. -/
def recvLoop (chat : Chat) (ending : StreamEnd) :
    List ChatCompletionStreamResponse → String → List Effect × Result String
  | [], fullResponse =>
    match ending with
    | .eof => ([], .ok fullResponse)
    | .failed err => ([], .error ("error streaming response: " ++ err))
  | response :: rest, fullResponse =>
    match response.Choices with
    | [] => ([], .panic "runtime error: index out of range [0] with length 0")
    | content :: _ =>
      let fullResponse := fullResponse ++ content
      let result : ChatCompletionOutputDTO :=
        { ChatID := chat.ID, UserID := chat.UserID, Content := fullResponse }
      let (sent, outcome) := recvLoop chat ending rest fullResponse
      (Effect.Send result :: sent, outcome)

/-- The first block of `Execute`: find the chat, or create and persist a new
one when the gateway answers `chat not found`. -/
def locateChat (useCase : ChatCompletionUseCase) (rt : Runtime)
    (input : ChatCompletionInputDTO) : List Effect × Result Chat :=
  match useCase.ChatGateway.FindChatByID input.ChatID with
  | .ok chat => ([Effect.FindChatByID input.ChatID], .ok chat)
  | .error err =>
    if err = "chat not found" then
      match CreateNewChat rt input with
      | .panic msg => ([Effect.FindChatByID input.ChatID], .panic msg)
      | .error err =>
        ([Effect.FindChatByID input.ChatID], .error ("error creating new chat: " ++ err))
      | .ok chat =>
        match useCase.ChatGateway.CreateChat chat with
        | some err =>
          ([Effect.FindChatByID input.ChatID, Effect.CreateChat chat],
            .error ("error persisting new chat: " ++ err))
        | none => ([Effect.FindChatByID input.ChatID, Effect.CreateChat chat], .ok chat)
    else
      ([Effect.FindChatByID input.ChatID], .error ("error fetching chat: " ++ err))

/-- The last block of `Execute`, after the stream ended with `io.EOF`: build
the assistant message, add it, save the chat, return the terminal result. -/
def finishTurn (useCase : ChatCompletionUseCase) (rt : Runtime) (chat : Chat)
    (fullResponse : String) : List Effect × Result ChatCompletionOutputDTO :=
  match NewMessage rt.CountTokens rt.assistantMessageID rt.assistantMessageNow
      "assystant" fullResponse chat.Config.Model with
  | .panic msg => ([], .panic msg)
  | .error err => ([], .error ("error creating assistant message: " ++ err))
  | .ok assistant =>
    match chat.AddMessage assistant with
    | (_, .panic msg) => ([], .panic msg)
    | (_, .error err) => ([], .error ("error adding new message: " ++ err))
    | (chat, .ok _) =>
      match useCase.ChatGateway.SaveChat chat with
      | some err => ([Effect.SaveChat chat], .error ("error saving chat: " ++ err))
      | none =>
        ([Effect.SaveChat chat],
          .ok { ChatID := chat.ID, UserID := chat.UserID, Content := fullResponse })

/-- `ChatCompletionUseCase.Execute`: the effects of the turn in order, and how
the call ended. -/
def Execute (useCase : ChatCompletionUseCase) (rt : Runtime)
    (input : ChatCompletionInputDTO) : List Effect × Result ChatCompletionOutputDTO :=
  match locateChat useCase rt input with
  | (located, .panic msg) => (located, .panic msg)
  | (located, .error err) => (located, .error err)
  | (located, .ok chat) =>
    match NewMessage rt.CountTokens rt.userMessageID rt.userMessageNow
        "user" input.UserMessage chat.Config.Model with
    | .panic msg => (located, .panic msg)
    | .error err => (located, .error ("error creating user message: " ++ err))
    | .ok userMessage =>
      match chat.AddMessage userMessage with
      | (_, .panic msg) => (located, .panic msg)
      | (_, .error err) => (located, .error ("error adding new message: " ++ err))
      | (chat, .ok _) =>
        let messages := projectMessages chat.Messages
        let request : ChatCompletionRequest :=
          { Model := chat.Config.Model.Name,
            Messages := messages,
            MaxTokens := chat.Config.MaxTokens,
            Temperature := chat.Config.Temperature,
            TopP := chat.Config.TopP,
            N := chat.Config.N,
            Stop := chat.Config.Stop,
            PresencePenalty := chat.Config.PresencePenalty,
            FrequencyPenalty := chat.Config.FrequencyPenalty,
            Stream := true }
        let requested := located ++ [Effect.CreateChatCompletionStream request]
        match useCase.OpenAIClient request with
        | .error err => (requested, .error ("error creating chat completion: " ++ err))
        | .ok res =>
          match recvLoop chat res.ending res.responses "" with
          | (sent, .panic msg) => (requested ++ sent, .panic msg)
          | (sent, .error err) => (requested ++ sent, .error err)
          | (sent, .ok fullResponse) =>
            let (saved, outcome) := finishTurn useCase rt chat fullResponse
            (requested ++ sent ++ saved, outcome)

end chatcompletionstream

open entities chatcompletionstream

/-! ## Vocabulary of the properties -/

namespace entities

/-- The exact sum of `Tokens` over a list of messages, as an integer. -/
def sumTokens (messages : List Message) : Int :=
  (messages.map (fun message => message.Tokens.val)).sum

/-- A finite sequence of `AddMessage` calls on one chat, each made on the chat
the previous one left: after every call, the chat and how the call ended. A
panic ends the sequence. -/
def Chat.AddMessages : Chat → List Message → List (Chat × Result Unit)
  | _, [] => []
  | chat, message :: later =>
    match chat.AddMessage message with
    | (chat, .panic msg) => [(chat, .panic msg)]
    | (chat, outcome) => (chat, outcome) :: Chat.AddMessages chat later

/-- The message with its role rewritten by `f`, everything else kept. -/
def Message.mapRole (f : String → String) (message : Message) : Message :=
  { message with Role := f message.Role }

/-- The chat with the role of every message it holds rewritten by `f`. -/
def Chat.mapRole (f : String → String) (chat : Chat) : Chat :=
  { chat with
    InitialSystemMessage := chat.InitialSystemMessage.mapRole f,
    Messages := chat.Messages.map (Message.mapRole f),
    ErasedMessages := chat.ErasedMessages.map (Message.mapRole f) }

/-- One call on a chat: `AddMessage(message)` or `End()`. -/
inductive ChatCall where
  | AddMessage (message : Message)
  | End
deriving DecidableEq

/-- A finite sequence of `AddMessage` and `End` calls on one chat, each made
on the chat the previous one left: the chat after the last call. A panic ends
the sequence. -/
def Chat.runCalls : Chat → List ChatCall → Chat
  | chat, [] => chat
  | chat, .End :: later => Chat.runCalls chat.End later
  | chat, .AddMessage message :: later =>
    match chat.AddMessage message with
    | (chat, .panic _) => chat
    | (chat, _) => Chat.runCalls chat later

end entities

namespace chatcompletionstream

/-- The request `Execute` submits for a chat, the chat being taken as it
stands after the user turn was added. -/
def requestOf (chat : Chat) : ChatCompletionRequest :=
  { Model := chat.Config.Model.Name,
    Messages := projectMessages chat.Messages,
    MaxTokens := chat.Config.MaxTokens,
    Temperature := chat.Config.Temperature,
    TopP := chat.Config.TopP,
    N := chat.Config.N,
    Stop := chat.Config.Stop,
    PresencePenalty := chat.Config.PresencePenalty,
    FrequencyPenalty := chat.Config.FrequencyPenalty,
    Stream := true }

/-- The concatenation `f1 ++ ... ++ fn` of a list of fragments. -/
def concatFragments (fragments : List String) : String :=
  fragments.foldl (fun text fragment => text ++ fragment) ""

/-- The event that carries a cumulative text for a chat. -/
def eventOf (chat : Chat) (text : String) : Effect :=
  Effect.Send { ChatID := chat.ID, UserID := chat.UserID, Content := text }

/-- The events for the fragments `f1 .. fn`: the `i`-th carries `f1 ++ ... ++ fi`. -/
def cumulativeEvents (chat : Chat) (fragments : List String) : List Effect :=
  (List.range fragments.length).map
    (fun i => eventOf chat (concatFragments (fragments.take (i + 1))))

/-- The effect is a call of `CreateChat`. -/
def Effect.isCreateChat : Effect → Bool
  | .CreateChat _ => true
  | _ => false

/-- The effect is a call of `SaveChat`. -/
def Effect.isSaveChat : Effect → Bool
  | .SaveChat _ => true
  | _ => false

/-- The effect is a value written to the channel. -/
def Effect.isSend : Effect → Bool
  | .Send _ => true
  | _ => false

/-- The effect is a call of the completion capability. -/
def Effect.isCompletionRequest : Effect → Bool
  | .CreateChatCompletionStream _ => true
  | _ => false

end chatcompletionstream

/-! ## Fixtures: the chat of scenarios A and B -/

def scenarioConfig : ChatConfig :=
  { Model := NewModel "gpt-3.5-turbo" 50, Temperature := .finite 1, TopP := .finite 1, N := 1,
    Stop := [], MaxTokens := 50, PresencePenalty := .finite 0, FrequencyPenalty := .finite 0 }

def scenarioTurn (id role : String) (tokens : GoInt) : Message :=
  { ID := id, Role := role, Content := "text", Tokens := tokens, Model := none,
    CreatedAt := { sec := 63800000000, nsec := 0 } }

def systemTurn : Message := scenarioTurn "m0" "system" 10

def userTurn20 : Message := scenarioTurn "m1" "user" 20

def userTurn25 : Message := scenarioTurn "m2" "user" 25

/-- The chat `NewChat` builds for scenario A: budget 50, system turn of 10. -/
def scenarioChat : Chat :=
  { ID := "c0", UserID := "u0", InitialSystemMessage := systemTurn, Messages := [systemTurn],
    ErasedMessages := [], Status := "active", TokenUsage := 10, Config := scenarioConfig }

/-- The chat after scenario A: the user turn of 20 was added. -/
def scenarioChatA : Chat :=
  { scenarioChat with Messages := [systemTurn, userTurn20], TokenUsage := 30 }

/-- The chat after scenario B: the user turn of 25 pushed the system turn out. -/
def scenarioChatB : Chat :=
  { scenarioChat with
    Messages := [userTurn20, userTurn25], ErasedMessages := [systemTurn], TokenUsage := 45 }

/-- A turn whose 60 tokens alone exceed the budget of 50. -/
def oversizedTurn : Message := scenarioTurn "m3" "user" 60

/-- A turn whose token count is the largest Go `int`, `2^63 - 1`. -/
def hugeTurn : Message := scenarioTurn "m4" "user" 9223372036854775807

/-- The chat the code leaves when `hugeTurn` is added to `scenarioChat`: the
sum `10 + (2^63 - 1)` has wrapped around to `-2^63 + 9`. -/
def scenarioChatHuge : Chat :=
  { scenarioChat with
    Messages := [systemTurn, hugeTurn], TokenUsage := GoInt.wrap (-9223372036854775799) }

/-- A configuration whose model budget of 5 is below the system turn of 10. -/
def smallBudgetConfig : ChatConfig :=
  { scenarioConfig with Model := NewModel "gpt-3.5-turbo" 5 }

/-! ## Fixtures: one turn on the chat of scenario A -/

/-- A tokenizer standing in for `tiktoken_go.CountTokens` (one token per
character), and the identifiers and clock readings of one turn. -/
def scenarioRuntime : Runtime :=
  { CountTokens := fun _ content => GoInt.wrap content.length,
    systemMessageID := "m0", systemMessageNow := { sec := 63800000000, nsec := 0 },
    newChatID := "c0",
    userMessageID := "m1", userMessageNow := { sec := 63800000001, nsec := 0 },
    assistantMessageID := "m2", assistantMessageNow := { sec := 63800000002, nsec := 0 } }

/-- The completion stream that delivers `Hel`, then `lo`, then `io.EOF`. -/
def helloStream : ChatCompletionStream :=
  { responses := [{ Choices := ["Hel"] }, { Choices := ["lo"] }], ending := .eof }

/-- The gateway finds the chat that opens scenario A and never fails; the
completion capability answers with `helloStream`. -/
def scenarioUseCase : ChatCompletionUseCase :=
  { ChatGateway :=
      { CreateChat := fun _ => none,
        FindChatByID := fun _ => .ok scenarioChat,
        SaveChat := fun _ => none },
    OpenAIClient := fun _ => .ok helloStream }

def scenarioInput : ChatCompletionInputDTO :=
  { ChatID := "c0", UserID := "u0", UserMessage := "hi",
    Config :=
      { Mode := "gpt-3.5-turbo", ModelMaxToken := 4096, Temperature := .finite 1,
        TopP := .finite 1, N := 1, Stop := [], MaxTokens := 50, PresencePenalty := .finite 0,
        FrequencyPenalty := .finite 0, InitialSystemMessage := "text" } }

/-- The user turn `NewMessage` builds from `scenarioInput`. -/
def scenarioUserTurn : Message :=
  { ID := "m1", Role := "user", Content := "hi", Tokens := 2, Model := none,
    CreatedAt := { sec := 63800000001, nsec := 0 } }

/-- The request `Execute` submits for `scenarioInput`. -/
def scenarioRequest : ChatCompletionRequest :=
  { Model := "gpt-3.5-turbo",
    Messages := [{ Role := "system", Content := "text" }, { Role := "user", Content := "hi" }],
    MaxTokens := 50, Temperature := .finite 1, TopP := .finite 1, N := 1, Stop := [],
    PresencePenalty := .finite 0, FrequencyPenalty := .finite 0, Stream := true }

/-! ## Fixtures: scenarios C and D -/

/-- Scenario D: the stream delivers `Hel`, then `lo`, then fails. -/
def failingStream : ChatCompletionStream :=
  { responses := [{ Choices := ["Hel"] }, { Choices := ["lo"] }],
    ending := .failed "connection reset" }

/-- The use case of scenario D: the chat is found, the stream is `failingStream`. -/
def failingStreamUseCase : ChatCompletionUseCase :=
  { scenarioUseCase with OpenAIClient := fun _ => .ok failingStream }

/-- Scenario C, unknown session: the gateway reports `chat not found`. -/
def notFoundUseCase : ChatCompletionUseCase :=
  { ChatGateway :=
      { CreateChat := fun _ => none,
        FindChatByID := fun _ => .error "chat not found",
        SaveChat := fun _ => none },
    OpenAIClient := fun _ => .ok helloStream }

/-- The lookup fails with an error other than `chat not found`. -/
def brokenLookupUseCase : ChatCompletionUseCase :=
  { ChatGateway :=
      { CreateChat := fun _ => none,
        FindChatByID := fun _ => .error "connection refused",
        SaveChat := fun _ => none },
    OpenAIClient := fun _ => .ok helloStream }

/-- The input of the scenario with an empty initial system message. -/
def emptySystemInput : ChatCompletionInputDTO :=
  { scenarioInput with Config := { scenarioInput.Config with InitialSystemMessage := "" } }

/-- The system turn `CreateNewChat` builds from `scenarioInput`. -/
def createdSystemTurn : Message :=
  { ID := "m0", Role := "system", Content := "text", Tokens := 4, Model := none,
    CreatedAt := { sec := 63800000000, nsec := 0 } }

/-- The chat `CreateNewChat` builds from `scenarioInput`. -/
def createdChat : Chat :=
  { ID := "c0", UserID := "u0", InitialSystemMessage := createdSystemTurn,
    Messages := [createdSystemTurn], ErasedMessages := [], Status := "active", TokenUsage := 4,
    Config := scenarioConfig }

/-- The chat of scenario A with the user turn of `scenarioInput` added. -/
def scenarioChatWithUser : Chat :=
  { scenarioChat with Messages := [systemTurn, scenarioUserTurn], TokenUsage := 12 }


/-! ## Arithmetic of the Go `int` -/

theorem wrapInt_of_inRange (x : Int)
    (hrange : -9223372036854775808 ≤ x ∧ x < 9223372036854775808) : wrapInt x = x := by
  unfold wrapInt
  omega

theorem wrapInt_wrapInt_add (a b : Int) : wrapInt (wrapInt a + b) = wrapInt (a + b) := by
  unfold wrapInt
  omega

theorem wrapInt_add_wrapInt (a b : Int) : wrapInt (a + wrapInt b) = wrapInt (a + b) := by
  unfold wrapInt
  omega

theorem goInt_add_val (a b : GoInt) : (a + b).val = wrapInt (a.val + b.val) := rfl

theorem goInt_zero_val : (0 : GoInt).val = 0 := by decide

theorem goInt_eq_of_val (a b : GoInt) (hval : a.val = b.val) : a = b := by
  cases a
  cases b
  simp only at hval
  subst hval
  rfl

theorem goInt_wrapInt_val (a : GoInt) : wrapInt a.val = a.val :=
  wrapInt_of_inRange a.val a.inRange

theorem goInt_add_zero (a : GoInt) : a + 0 = a := by
  apply goInt_eq_of_val
  rw [goInt_add_val, goInt_zero_val, add_zero, goInt_wrapInt_val]

theorem goInt_zero_add (a : GoInt) : 0 + a = a := by
  apply goInt_eq_of_val
  rw [goInt_add_val, goInt_zero_val, zero_add, goInt_wrapInt_val]

theorem goInt_le_iff (a b : GoInt) : a ≤ b ↔ a.val ≤ b.val := Iff.rfl

theorem goInt_lt_iff (a b : GoInt) : a < b ↔ a.val < b.val := Iff.rfl

/-! ## The token usage is the wrapped sum of the window -/

theorem sumTokens_append (front back : List Message) :
    sumTokens (front ++ back) = sumTokens front + sumTokens back := by
  simp [sumTokens]

theorem sumTokens_cons (first : Message) (rest : List Message) :
    sumTokens (first :: rest) = first.Tokens.val + sumTokens rest := by
  simp [sumTokens]

theorem sumTokens_nil : sumTokens [] = 0 := rfl

theorem foldl_tokens (messages : List Message) (start : GoInt) :
    (messages.foldl (fun usage message => usage + message.GetQtdTokens) start).val
      = wrapInt (start.val + sumTokens messages) := by
  induction messages generalizing start with
  | nil => rw [List.foldl_nil, sumTokens_nil, add_zero, goInt_wrapInt_val]
  | cons first rest ih =>
    rw [List.foldl_cons, ih, sumTokens_cons, Message.GetQtdTokens, goInt_add_val,
      wrapInt_wrapInt_add, add_assoc]

/-- The refreshed usage is the sum of the window, wrapped to the range of the
Go `int`. -/
theorem tokenUsageOf_val (messages : List Message) :
    (tokenUsageOf messages).val = wrapInt (sumTokens messages) := by
  rw [tokenUsageOf, foldl_tokens, goInt_zero_val, zero_add]

theorem tokenUsageOf_nil : tokenUsageOf [] = 0 := rfl

/-- The fit test of the loop, on a usage that is the wrapped sum of the
window. -/
theorem fit_iff (chat : Chat) (message : Message) (messages : List Message) (usage : GoInt)
    (husage : usage.val = wrapInt (sumTokens messages)) :
    chat.Config.Model.GetMaxTokens ≥ message.GetQtdTokens + usage ↔
      wrapInt (sumTokens messages + message.Tokens.val) ≤ chat.Config.Model.MaxTokens.val := by
  have hsum : (message.GetQtdTokens + usage).val
      = wrapInt (sumTokens messages + message.Tokens.val) := by
    rw [goInt_add_val, husage, wrapInt_add_wrapInt, Message.GetQtdTokens, add_comm]
  rw [ge_iff_le, goInt_le_iff, hsum, Model.GetMaxTokens]

/-! ## What the eviction loop computes -/

/-- The loop never returns an error; it ends by appending after `k` evictions
or by a panic on the emptied window. -/
theorem addMessageLoop_shape (chat : Chat) (message : Message) :
    ∀ (messages erased : List Message) (usage : GoInt),
      (∃ k, k ≤ messages.length ∧
        chat.addMessageLoop message messages erased usage =
          ({ chat with Messages := messages.drop k ++ [message],
                       ErasedMessages := erased ++ messages.take k,
                       TokenUsage := tokenUsageOf (messages.drop k ++ [message]) }, .ok ())) ∨
      (chat.addMessageLoop message messages erased usage =
          ({ chat with Messages := [],
                       ErasedMessages := erased ++ messages,
                       TokenUsage := if messages = [] then usage else 0 },
            .panic "runtime error: index out of range [0] with length 0")) := by
  intro messages
  induction messages with
  | nil =>
    intro erased usage
    unfold Chat.addMessageLoop
    by_cases hfit : chat.Config.Model.GetMaxTokens ≥ message.GetQtdTokens + usage
    · left
      refine ⟨0, le_refl _, ?_⟩
      rw [if_pos hfit]
      simp [Chat.RefreshTokenUsage]
    · right
      rw [if_neg hfit]
      simp
  | cons first rest ih =>
    intro erased usage
    unfold Chat.addMessageLoop
    by_cases hfit : chat.Config.Model.GetMaxTokens ≥ message.GetQtdTokens + usage
    · left
      refine ⟨0, Nat.zero_le _, ?_⟩
      rw [if_pos hfit]
      simp [Chat.RefreshTokenUsage]
    · rw [if_neg hfit]
      rcases ih (erased ++ [first]) (tokenUsageOf rest) with ⟨k, hk, hrun⟩ | hrun
      · left
        refine ⟨k + 1, by simpa using hk, ?_⟩
        simp only [hrun]
        simp
      · right
        simp only [hrun]
        cases rest with
        | nil => simp [tokenUsageOf_nil]
        | cons second others => simp

/-- With the usage equal to the wrapped sum of the window on entry, the loop
evicts the least number of messages after which the incoming one fits, the
sums being those of the wrapping Go addition; it panics when no number
does. -/
theorem addMessageLoop_exact (chat : Chat) (message : Message) :
    ∀ (messages erased : List Message) (usage : GoInt),
      usage.val = wrapInt (sumTokens messages) →
      (∃ k, k ≤ messages.length ∧
        wrapInt (sumTokens (messages.drop k) + message.Tokens.val)
          ≤ chat.Config.Model.MaxTokens.val ∧
        (∀ j, j < k →
          ¬ wrapInt (sumTokens (messages.drop j) + message.Tokens.val)
            ≤ chat.Config.Model.MaxTokens.val) ∧
        chat.addMessageLoop message messages erased usage =
          ({ chat with Messages := messages.drop k ++ [message],
                       ErasedMessages := erased ++ messages.take k,
                       TokenUsage := tokenUsageOf (messages.drop k ++ [message]) }, .ok ())) ∨
      ((∀ j, j ≤ messages.length →
          ¬ wrapInt (sumTokens (messages.drop j) + message.Tokens.val)
            ≤ chat.Config.Model.MaxTokens.val) ∧
        chat.addMessageLoop message messages erased usage =
          ({ chat with Messages := [], ErasedMessages := erased ++ messages, TokenUsage := 0 },
            .panic "runtime error: index out of range [0] with length 0")) := by
  intro messages
  induction messages with
  | nil =>
    intro erased usage husage
    have hiff := fit_iff chat message [] usage husage
    unfold Chat.addMessageLoop
    by_cases hfit : chat.Config.Model.GetMaxTokens ≥ message.GetQtdTokens + usage
    · left
      refine ⟨0, le_refl _, ?_, ?_, ?_⟩
      · rw [List.drop_zero]
        exact hiff.mp hfit
      · intro j hj
        omega
      · rw [if_pos hfit]
        simp [Chat.RefreshTokenUsage]
    · right
      refine ⟨?_, ?_⟩
      · intro j _
        rw [List.drop_nil]
        exact fun h => hfit (hiff.mpr h)
      · have hzero : usage = 0 := by
          apply goInt_eq_of_val
          rw [husage, sumTokens_nil, goInt_zero_val]
          rfl
        rw [if_neg hfit, hzero, List.append_nil]
  | cons first rest ih =>
    intro erased usage husage
    have hiff := fit_iff chat message (first :: rest) usage husage
    unfold Chat.addMessageLoop
    by_cases hfit : chat.Config.Model.GetMaxTokens ≥ message.GetQtdTokens + usage
    · left
      refine ⟨0, Nat.zero_le _, ?_, ?_, ?_⟩
      · rw [List.drop_zero]
        exact hiff.mp hfit
      · intro j hj
        omega
      · rw [if_pos hfit]
        simp [Chat.RefreshTokenUsage]
    · have hhead : ¬ wrapInt (sumTokens ((first :: rest).drop 0) + message.Tokens.val)
          ≤ chat.Config.Model.MaxTokens.val := by
        rw [List.drop_zero]
        exact fun h => hfit (hiff.mpr h)
      rcases ih (erased ++ [first]) (tokenUsageOf rest) (tokenUsageOf_val rest)
        with ⟨k, hk, hfits, hleast, hrun⟩ | ⟨hnone, hrun⟩
      · left
        refine ⟨k + 1, by simpa using hk, by simpa using hfits, ?_, ?_⟩
        · intro j hj
          cases j with
          | zero => exact hhead
          | succ i => simpa using hleast i (by omega)
        · rw [if_neg hfit]
          simp only [hrun]
          simp
      · right
        refine ⟨?_, ?_⟩
        · intro j hj
          cases j with
          | zero => exact hhead
          | succ i => simpa using hnone i (by simpa using hj)
        · rw [if_neg hfit]
          simp only [hrun]
          simp

/-- The loop does not look at roles. -/
theorem addMessageLoop_mapRole (f : String → String) (chat : Chat) (message : Message) :
    ∀ (messages erased : List Message) (usage : GoInt),
      (chat.mapRole f).addMessageLoop (message.mapRole f)
          (messages.map (Message.mapRole f)) (erased.map (Message.mapRole f)) usage
        = (((chat.addMessageLoop message messages erased usage).1).mapRole f,
            (chat.addMessageLoop message messages erased usage).2) := by
  have htokens : ∀ l : List Message, tokenUsageOf (l.map (Message.mapRole f)) = tokenUsageOf l := by
    intro l
    apply goInt_eq_of_val
    rw [tokenUsageOf_val, tokenUsageOf_val]
    congr 1
    simp [sumTokens, Message.mapRole, Function.comp_def]
  intro messages
  induction messages with
  | nil =>
    intro erased usage
    unfold Chat.addMessageLoop
    by_cases hfit : chat.Config.Model.GetMaxTokens ≥ message.GetQtdTokens + usage
    · have hfit2 : (chat.mapRole f).Config.Model.GetMaxTokens
          ≥ (message.mapRole f).GetQtdTokens + usage := hfit
      have h1 := htokens [message]
      simp only [List.map_cons, List.map_nil] at h1
      rw [if_pos hfit, if_pos hfit2]
      simp [Chat.RefreshTokenUsage, Chat.mapRole, h1]
    · have hfit2 : ¬ (chat.mapRole f).Config.Model.GetMaxTokens
          ≥ (message.mapRole f).GetQtdTokens + usage := hfit
      rw [if_neg hfit, if_neg hfit2]
      simp [Chat.mapRole]
  | cons first rest ih =>
    intro erased usage
    unfold Chat.addMessageLoop
    by_cases hfit : chat.Config.Model.GetMaxTokens ≥ message.GetQtdTokens + usage
    · have hfit2 : (chat.mapRole f).Config.Model.GetMaxTokens
          ≥ (message.mapRole f).GetQtdTokens + usage := hfit
      have h1 := htokens (first :: (rest ++ [message]))
      simp only [List.map_cons, List.map_append, List.map_nil] at h1
      rw [if_pos hfit, if_pos hfit2]
      simp [Chat.RefreshTokenUsage, Chat.mapRole, h1]
    · have hfit2 : ¬ (chat.mapRole f).Config.Model.GetMaxTokens
          ≥ (message.mapRole f).GetQtdTokens + usage := hfit
      have h2 := ih (erased ++ [first]) (tokenUsageOf rest)
      simp only [List.map_cons, List.map_append, List.map_nil] at h2
      rw [if_neg hfit, if_neg hfit2]
      simp only [List.map_cons, htokens]
      exact h2

/-- `NewChat`, with the call of `AddMessage` on the empty chat carried out. -/
theorem NewChat_eq (id userID : String) (sys : Message) (config : ChatConfig) :
    NewChat id userID sys config =
      if config.Model.MaxTokens ≥ sys.Tokens + 0 then
        match Chat.Validate
            { ID := id, UserID := userID, InitialSystemMessage := sys, Messages := [sys],
              ErasedMessages := [], Status := "active", TokenUsage := sys.Tokens,
              Config := config } with
        | some err => .error err
        | none =>
          .ok { ID := id, UserID := userID, InitialSystemMessage := sys, Messages := [sys],
                ErasedMessages := [], Status := "active", TokenUsage := sys.Tokens,
                Config := config }
      else .panic "runtime error: index out of range [0] with length 0" := by
  have hactive : ¬ ("active" = "ended") := by decide
  have husage : tokenUsageOf [sys] = sys.Tokens := by
    simp only [tokenUsageOf, List.foldl_cons, List.foldl_nil, Message.GetQtdTokens]
    exact goInt_zero_add sys.Tokens
  unfold NewChat Chat.AddMessage Chat.addMessageLoop
  simp only [if_neg hactive, Model.GetMaxTokens, Message.GetQtdTokens]
  by_cases hfit : config.Model.MaxTokens ≥ sys.Tokens + 0
  · rw [if_pos hfit, if_pos hfit]
    simp only [Chat.RefreshTokenUsage, List.nil_append, husage]
  · rw [if_neg hfit, if_neg hfit]

/-- A chat returned by `NewChat` is the active chat holding the system turn. -/
theorem NewChat_ok (id userID : String) (sys : Message) (config : ChatConfig) (chat : Chat)
    (hnew : NewChat id userID sys config = .ok chat) :
    chat = { ID := id, UserID := userID, InitialSystemMessage := sys, Messages := [sys],
             ErasedMessages := [], Status := "active", TokenUsage := sys.Tokens,
             Config := config } := by
  rw [NewChat_eq] at hnew
  split at hnew
  · split at hnew
    · exact absurd hnew (by simp)
    · exact (Result.ok.inj hnew).symm
  · exact absurd hnew (by simp)

/-- One call of `AddMessage` keeps the usage equal to the wrapped sum of the
window, however the call ends. -/
theorem AddMessage_keeps_usage (chat : Chat) (message : Message)
    (husage : chat.TokenUsage.val = wrapInt (sumTokens chat.Messages)) :
    (chat.AddMessage message).1.TokenUsage.val
      = wrapInt (sumTokens (chat.AddMessage message).1.Messages) := by
  unfold Chat.AddMessage
  by_cases hended : chat.Status = "ended"
  · rw [if_pos hended]
    exact husage
  · rw [if_neg hended]
    rcases addMessageLoop_exact chat message chat.Messages chat.ErasedMessages chat.TokenUsage
      husage with ⟨k, _, _, _, hrun⟩ | ⟨_, hrun⟩
    · rw [hrun]
      exact tokenUsageOf_val _
    · rw [hrun]
      rfl

theorem AddMessages_keep_usage (later : List Message) :
    ∀ chat : Chat, chat.TokenUsage.val = wrapInt (sumTokens chat.Messages) →
      ∀ step ∈ chat.AddMessages later,
        step.1.TokenUsage.val = wrapInt (sumTokens step.1.Messages) := by
  induction later with
  | nil =>
    intro chat _ step hstep
    simp [Chat.AddMessages] at hstep
  | cons message later ih =>
    intro chat husage step hstep
    have hkeep := AddMessage_keeps_usage chat message husage
    unfold Chat.AddMessages at hstep
    split at hstep
    · next after msg heq =>
      rw [heq] at hkeep
      simp only [List.mem_singleton] at hstep
      subst hstep
      exact hkeep
    · next after outcome _ heq =>
      rw [heq] at hkeep
      rcases List.mem_cons.mp hstep with hhere | hlater
      · subst hhere
        exact hkeep
      · exact ih after hkeep step hlater

/-- A successful `AddMessage` is a successful run of the loop on a chat that
has not ended. -/
theorem AddMessage_ok_loop (chat : Chat) (message : Message) (after : Chat)
    (hok : chat.AddMessage message = (after, .ok ())) :
    chat.addMessageLoop message chat.Messages chat.ErasedMessages chat.TokenUsage
      = (after, .ok ()) := by
  unfold Chat.AddMessage at hok
  by_cases hended : chat.Status = "ended"
  · rw [if_pos hended] at hok
    exact absurd (congrArg Prod.snd hok) (by simp)
  · rw [if_neg hended] at hok
    exact hok

/-- A usage that is the exact sum of the window is its wrapped sum. -/
theorem wrapped_of_exact (chat : Chat) (husage : chat.TokenUsage.val = sumTokens chat.Messages) :
    chat.TokenUsage.val = wrapInt (sumTokens chat.Messages) := by
  rw [← husage, goInt_wrapInt_val]

/-! ## The claims on the chat aggregate -/

/-- C1, usage invariant, as the code has it: a chat returned by `NewChat` has
`TokenUsage` equal to the exact sum of `Tokens` over its `Messages`; after
each call of any finite sequence of `AddMessage` calls made on it,
`TokenUsage` is that sum wrapped to the range of the 64-bit Go `int`, which is
the exact sum whenever the exact sum lies in that range. -/
theorem C1_usage_invariant (id userID : String) (sys : Message) (config : ChatConfig)
    (chat : Chat) (later : List Message)
    (hnew : NewChat id userID sys config = .ok chat) :
    chat.TokenUsage.val = sumTokens chat.Messages ∧
    ∀ step ∈ chat.AddMessages later,
      step.1.TokenUsage.val = wrapInt (sumTokens step.1.Messages) ∧
      (-9223372036854775808 ≤ sumTokens step.1.Messages ∧
          sumTokens step.1.Messages < 9223372036854775808 →
        step.1.TokenUsage.val = sumTokens step.1.Messages) := by
  have hstart : chat.TokenUsage.val = sumTokens chat.Messages := by
    rw [NewChat_ok id userID sys config chat hnew]
    simp [sumTokens]
  refine ⟨hstart, ?_⟩
  intro step hstep
  have hwrapped := AddMessages_keep_usage later chat (wrapped_of_exact chat hstart) step hstep
  refine ⟨hwrapped, ?_⟩
  intro hrange
  rw [hwrapped, wrapInt_of_inRange _ hrange]

theorem C1_usage_invariant_witness :
    NewChat "c0" "u0" systemTurn scenarioConfig = .ok scenarioChat ∧
    scenarioChat.AddMessages [userTurn20, userTurn25]
      = [(scenarioChatA, .ok ()), (scenarioChatB, .ok ())] ∧
    (scenarioChat.TokenUsage.val = sumTokens scenarioChat.Messages ∧
      ∀ step ∈ scenarioChat.AddMessages [userTurn20, userTurn25],
        step.1.TokenUsage.val = wrapInt (sumTokens step.1.Messages) ∧
        (-9223372036854775808 ≤ sumTokens step.1.Messages ∧
            sumTokens step.1.Messages < 9223372036854775808 →
          step.1.TokenUsage.val = sumTokens step.1.Messages)) :=
  ⟨by decide, by decide,
    C1_usage_invariant "c0" "u0" systemTurn scenarioConfig scenarioChat [userTurn20, userTurn25]
      (by decide)⟩

/-- C1 as stated fails: on the chat `NewChat` builds for a system turn of 10
tokens and a budget of 50, `AddMessage` of a message whose `Tokens` is the
largest `int` returns without error (the wrapped fit test passes) and leaves
`TokenUsage = -9223372036854775799`, while the exact sum of `Tokens` over
`Messages` is `9223372036854775817`. -/
theorem C1_usage_is_not_the_exact_sum :
    NewChat "c0" "u0" systemTurn scenarioConfig = .ok scenarioChat ∧
    scenarioChat.AddMessages [hugeTurn] = [(scenarioChatHuge, .ok ())] ∧
    scenarioChatHuge.TokenUsage.val = -9223372036854775799 ∧
    sumTokens scenarioChatHuge.Messages = 9223372036854775817 ∧
    ¬ scenarioChatHuge.TokenUsage.val = sumTokens scenarioChatHuge.Messages := by
  decide

/-- C2, budget invariant: when `TokenUsage` is the sum of `Tokens` over
`Messages` and `AddMessage` returns without error, the usage afterwards is at
most `Config.Model.MaxTokens`. -/
theorem C2_budget_invariant (chat : Chat) (message : Message) (after : Chat)
    (husage : chat.TokenUsage.val = sumTokens chat.Messages)
    (hok : chat.AddMessage message = (after, .ok ())) :
    after.TokenUsage ≤ after.Config.Model.MaxTokens := by
  have hloop := AddMessage_ok_loop chat message after hok
  rcases addMessageLoop_exact chat message chat.Messages chat.ErasedMessages chat.TokenUsage
    (wrapped_of_exact chat husage) with ⟨k, _, hfits, _, hrun⟩ | ⟨_, hrun⟩
  · rw [hrun] at hloop
    have hafter := (congrArg Prod.fst hloop).symm
    simp only at hafter
    rw [hafter, goInt_le_iff]
    simp only
    rw [tokenUsageOf_val, sumTokens_append, sumTokens_cons, sumTokens_nil, add_zero]
    exact hfits
  · rw [hrun] at hloop
    exact absurd (congrArg Prod.snd hloop) (by simp)

theorem C2_budget_invariant_witness :
    scenarioChatA.TokenUsage.val = sumTokens scenarioChatA.Messages ∧
    scenarioChatA.AddMessage userTurn25 = (scenarioChatB, .ok ()) ∧
    scenarioChatB.TokenUsage ≤ scenarioChatB.Config.Model.MaxTokens :=
  ⟨by decide, by decide,
    C2_budget_invariant scenarioChatA userTurn25 scenarioChatB (by decide) (by decide)⟩

theorem sumTokens_nonneg (messages : List Message)
    (hnonneg : ∀ m ∈ messages, 0 ≤ m.Tokens.val) : 0 ≤ sumTokens messages := by
  unfold sumTokens
  apply List.sum_nonneg
  intro x hx
  rcases List.mem_map.mp hx with ⟨m, hm, rfl⟩
  exact hnonneg m hm

theorem sumTokens_drop_bounds (messages : List Message)
    (hnonneg : ∀ m ∈ messages, 0 ≤ m.Tokens.val) (j : Nat) :
    0 ≤ sumTokens (messages.drop j) ∧ sumTokens (messages.drop j) ≤ sumTokens messages := by
  have hsplit : sumTokens messages
      = sumTokens (messages.take j) + sumTokens (messages.drop j) := by
    rw [← sumTokens_append, List.take_append_drop]
  have htake := sumTokens_nonneg (messages.take j)
    (fun m hm => hnonneg m (List.mem_of_mem_take hm))
  have hdrop := sumTokens_nonneg (messages.drop j)
    (fun m hm => hnonneg m (List.mem_of_mem_drop hm))
  omega

/-- On an active chat whose usage is the sum of its non-negative token counts,
a message larger than the whole budget, with which that sum stays in the range
of the Go `int`, is never rejected: the loop moves the entire history to
`ErasedMessages` and then panics on the empty window. -/
theorem AddMessage_oversized_panics (chat : Chat) (message : Message)
    (hactive : chat.Status = "active")
    (husage : chat.TokenUsage.val = sumTokens chat.Messages)
    (hnonneg : ∀ m ∈ chat.Messages, 0 ≤ m.Tokens.val)
    (hbig : chat.Config.Model.MaxTokens < message.Tokens)
    (hrange : sumTokens chat.Messages + message.Tokens.val < 9223372036854775808) :
    chat.AddMessage message =
      ({ chat with Messages := [], ErasedMessages := chat.ErasedMessages ++ chat.Messages,
                   TokenUsage := 0 },
        .panic "runtime error: index out of range [0] with length 0") := by
  have hended : ¬ chat.Status = "ended" := by
    rw [hactive]
    decide
  unfold Chat.AddMessage
  rw [if_neg hended]
  rcases addMessageLoop_exact chat message chat.Messages chat.ErasedMessages chat.TokenUsage
    (wrapped_of_exact chat husage) with ⟨k, _, hfits, _, _⟩ | ⟨_, hrun⟩
  · have hbounds := sumTokens_drop_bounds chat.Messages hnonneg k
    have hmessage := message.Tokens.inRange
    rw [goInt_lt_iff] at hbig
    rw [wrapInt_of_inRange _ (by constructor <;> omega)] at hfits
    omega
  · exact hrun

/-- C3, oversized message policy, on the code: the chat of scenario A (budget
50, window of 10 and 20 tokens) is active and is given a message of 60 tokens.
`AddMessage` returns no error: it evicts the entire history and panics, with
`Messages` left empty and both turns in `ErasedMessages`. -/
theorem C3_oversized_message_evicts_all_and_panics :
    scenarioChatA.Status = "active" ∧
    scenarioChatA.Config.Model.MaxTokens < oversizedTurn.Tokens ∧
    scenarioChatA.AddMessage oversizedTurn =
      ({ scenarioChatA with Messages := [], ErasedMessages := [systemTurn, userTurn20],
                            TokenUsage := 0 },
        .panic "runtime error: index out of range [0] with length 0") := by
  decide

/-- C4, exact eviction count, as the code has it. When the usage is the sum of
the window wrapped to the range of the Go `int` (as it is whenever it is the
exact sum) and `AddMessage` succeeds on message `m`, the number `k` of evicted
messages is the least `k` for which `sum(Tokens of Messages[k:]) + m.Tokens`,
wrapped as the Go addition computes it, is at most `MaxTokens`. When none of
the sums `sum(Tokens of Messages[j:]) + m.Tokens` leaves the range of the Go
`int`, `k` is the least `k` with the exact sum at most `MaxTokens`. When
`TokenUsage + m.Tokens ≤ MaxTokens` in Go arithmetic nothing is evicted and
`Messages` becomes `Messages ++ [m]`. Scenario A: budget 50, system turn of
10, a user turn of 20 gives `[system, user]`, usage 30, nothing erased.
Scenario B: a further user turn of 25 gives `[user20, user25]`, usage 45,
erased `[system]`. -/
theorem C4_exact_eviction_count (chat : Chat) (message : Message) (after : Chat)
    (husage : chat.TokenUsage.val = wrapInt (sumTokens chat.Messages))
    (hok : chat.AddMessage message = (after, .ok ())) :
    (∃ k, k ≤ chat.Messages.length ∧
      after.ErasedMessages = chat.ErasedMessages ++ chat.Messages.take k ∧
      after.Messages = chat.Messages.drop k ++ [message] ∧
      wrapInt (sumTokens (chat.Messages.drop k) + message.Tokens.val)
        ≤ chat.Config.Model.MaxTokens.val ∧
      ∀ j, j < k →
        ¬ wrapInt (sumTokens (chat.Messages.drop j) + message.Tokens.val)
          ≤ chat.Config.Model.MaxTokens.val) ∧
    ((∀ j, j ≤ chat.Messages.length →
        -9223372036854775808 ≤ sumTokens (chat.Messages.drop j) + message.Tokens.val ∧
        sumTokens (chat.Messages.drop j) + message.Tokens.val < 9223372036854775808) →
      ∃ k, k ≤ chat.Messages.length ∧
        after.ErasedMessages = chat.ErasedMessages ++ chat.Messages.take k ∧
        after.Messages = chat.Messages.drop k ++ [message] ∧
        sumTokens (chat.Messages.drop k) + message.Tokens.val
          ≤ chat.Config.Model.MaxTokens.val ∧
        ∀ j, j < k →
          ¬ sumTokens (chat.Messages.drop j) + message.Tokens.val
            ≤ chat.Config.Model.MaxTokens.val) ∧
    (chat.TokenUsage + message.Tokens ≤ chat.Config.Model.MaxTokens →
      after.Messages = chat.Messages ++ [message] ∧
      after.ErasedMessages = chat.ErasedMessages) ∧
    (NewChat "c0" "u0" systemTurn scenarioConfig = .ok scenarioChat ∧
      scenarioChat.AddMessage userTurn20 =
        ({ scenarioChat with Messages := [systemTurn, userTurn20], ErasedMessages := [],
                             TokenUsage := 30 }, .ok ())) ∧
    (scenarioChatA.AddMessage userTurn25 =
        ({ scenarioChatA with Messages := [userTurn20, userTurn25],
                              ErasedMessages := [systemTurn], TokenUsage := 45 }, .ok ())) := by
  have hloop := AddMessage_ok_loop chat message after hok
  rcases addMessageLoop_exact chat message chat.Messages chat.ErasedMessages chat.TokenUsage
    husage with ⟨k, hk, hfits, hleast, hrun⟩ | ⟨_, hrun⟩
  · rw [hrun] at hloop
    have hafter := (congrArg Prod.fst hloop).symm
    simp only at hafter
    refine ⟨⟨k, hk, by rw [hafter], by rw [hafter], hfits, hleast⟩, ?_, ?_,
      ⟨by decide, by decide⟩, by decide⟩
    · intro hrange
      refine ⟨k, hk, by rw [hafter], by rw [hafter], ?_, ?_⟩
      · rw [wrapInt_of_inRange _ (hrange k hk)] at hfits
        exact hfits
      · intro j hj
        have hnot := hleast j hj
        rw [wrapInt_of_inRange _ (hrange j (by omega))] at hnot
        exact hnot
    · intro hfit
      have hzero : k = 0 := by
        by_contra hne
        have hnot := hleast 0 (Nat.pos_of_ne_zero hne)
        apply hnot
        rw [goInt_le_iff, goInt_add_val, husage, wrapInt_wrapInt_add] at hfit
        rw [List.drop_zero]
        exact hfit
      subst hzero
      rw [hafter]
      simp
  · rw [hrun] at hloop
    exact absurd (congrArg Prod.snd hloop) (by simp)

theorem C4_exact_eviction_count_witness :
    scenarioChatA.TokenUsage.val = wrapInt (sumTokens scenarioChatA.Messages) ∧
    scenarioChatA.AddMessage userTurn25 = (scenarioChatB, .ok ()) ∧
    (∀ j, j ≤ scenarioChatA.Messages.length →
        -9223372036854775808 ≤ sumTokens (scenarioChatA.Messages.drop j) + userTurn25.Tokens.val ∧
        sumTokens (scenarioChatA.Messages.drop j) + userTurn25.Tokens.val
          < 9223372036854775808) ∧
    (∃ k, k ≤ scenarioChatA.Messages.length ∧
      scenarioChatB.ErasedMessages = scenarioChatA.ErasedMessages ++ scenarioChatA.Messages.take k ∧
      scenarioChatB.Messages = scenarioChatA.Messages.drop k ++ [userTurn25] ∧
      wrapInt (sumTokens (scenarioChatA.Messages.drop k) + userTurn25.Tokens.val)
        ≤ scenarioChatA.Config.Model.MaxTokens.val ∧
      ∀ j, j < k →
        ¬ wrapInt (sumTokens (scenarioChatA.Messages.drop j) + userTurn25.Tokens.val)
          ≤ scenarioChatA.Config.Model.MaxTokens.val) ∧
    (∃ k, k ≤ scenarioChatA.Messages.length ∧
      scenarioChatB.ErasedMessages = scenarioChatA.ErasedMessages ++ scenarioChatA.Messages.take k ∧
      scenarioChatB.Messages = scenarioChatA.Messages.drop k ++ [userTurn25] ∧
      sumTokens (scenarioChatA.Messages.drop k) + userTurn25.Tokens.val
        ≤ scenarioChatA.Config.Model.MaxTokens.val ∧
      ∀ j, j < k →
        ¬ sumTokens (scenarioChatA.Messages.drop j) + userTurn25.Tokens.val
          ≤ scenarioChatA.Config.Model.MaxTokens.val) :=
  ⟨by decide, by decide, by decide,
    (C4_exact_eviction_count scenarioChatA userTurn25 scenarioChatB (by decide) (by decide)).1,
    (C4_exact_eviction_count scenarioChatA userTurn25 scenarioChatB (by decide)
      (by decide)).2.1 (by decide)⟩

/-- C4 as stated fails: the chat of scenario A before the user turn (budget
50, window of one system turn of 10 tokens, usage 10, the exact sum) is given
a message whose `Tokens` is the largest `int`. `AddMessage` succeeds and evicts
nothing, although the exact `sum(Tokens of Messages[0:]) + m.Tokens`,
`9223372036854775817`, exceeds `MaxTokens`: the number of evicted messages is
not a `k` that satisfies the stated inequality. -/
theorem C4_evicts_nothing_on_overflow :
    scenarioChat.TokenUsage.val = sumTokens scenarioChat.Messages ∧
    scenarioChat.AddMessage hugeTurn = (scenarioChatHuge, .ok ()) ∧
    scenarioChatHuge.ErasedMessages = scenarioChat.ErasedMessages ∧
    scenarioChatHuge.Messages = scenarioChat.Messages.drop 0 ++ [hugeTurn] ∧
    sumTokens (scenarioChat.Messages.drop 0) + hugeTurn.Tokens.val = 9223372036854775817 ∧
    ¬ sumTokens (scenarioChat.Messages.drop 0) + hugeTurn.Tokens.val
      ≤ scenarioChat.Config.Model.MaxTokens.val := by
  decide

/-- C5, FIFO eviction: when `AddMessage` succeeds on message `m` there is a
`k` such that `ErasedMessages` afterwards is `ErasedMessages` before followed
by the first `k` of `Messages` in their order, and `Messages` afterwards is
`Messages` before without its first `k`, followed by `m`. Eviction ignores
role: rewriting every role by any function `f` changes nothing else in the
outcome, so a system message at the head is evicted like any other. -/
theorem C5_fifo_eviction (chat : Chat) (message : Message) (after : Chat)
    (hok : chat.AddMessage message = (after, .ok ())) :
    (∃ k, k ≤ chat.Messages.length ∧
      after.ErasedMessages = chat.ErasedMessages ++ chat.Messages.take k ∧
      after.Messages = chat.Messages.drop k ++ [message]) ∧
    ∀ f : String → String,
      (chat.mapRole f).AddMessage (message.mapRole f) = (after.mapRole f, .ok ()) := by
  have hloop := AddMessage_ok_loop chat message after hok
  refine ⟨?_, ?_⟩
  · rcases addMessageLoop_shape chat message chat.Messages chat.ErasedMessages chat.TokenUsage
      with ⟨k, hk, hrun⟩ | hrun
    · rw [hrun] at hloop
      have hafter := (congrArg Prod.fst hloop).symm
      simp only at hafter
      exact ⟨k, hk, by rw [hafter], by rw [hafter]⟩
    · rw [hrun] at hloop
      exact absurd (congrArg Prod.snd hloop) (by simp)
  · intro f
    have hended : ¬ chat.Status = "ended" := by
      intro h
      unfold Chat.AddMessage at hok
      rw [if_pos h] at hok
      exact absurd (congrArg Prod.snd hok) (by simp)
    have hended2 : ¬ (chat.mapRole f).Status = "ended" := hended
    have hmap := addMessageLoop_mapRole f chat message chat.Messages chat.ErasedMessages
      chat.TokenUsage
    rw [hloop] at hmap
    unfold Chat.AddMessage
    rw [if_neg hended2]
    exact hmap

theorem C5_fifo_eviction_witness :
    scenarioChatA.AddMessage userTurn25 = (scenarioChatB, .ok ()) ∧
    ((∃ k, k ≤ scenarioChatA.Messages.length ∧
      scenarioChatB.ErasedMessages = scenarioChatA.ErasedMessages ++ scenarioChatA.Messages.take k ∧
      scenarioChatB.Messages = scenarioChatA.Messages.drop k ++ [userTurn25]) ∧
    ∀ f : String → String,
      (scenarioChatA.mapRole f).AddMessage (userTurn25.mapRole f)
        = (scenarioChatB.mapRole f, .ok ())) :=
  ⟨by decide, C5_fifo_eviction scenarioChatA userTurn25 scenarioChatB (by decide)⟩

/-- C6, terminal state: after `End()`, every call of any finite sequence of
`AddMessage` calls returns the chat-ended error and leaves the chat as `End()`
left it, whose `Messages`, `ErasedMessages` and `TokenUsage` are those of the
chat before `End()`. -/
theorem C6_terminal_state (chat : Chat) (later : List Message) :
    chat.End.AddMessages later =
      List.replicate later.length
        (chat.End, Result.error "chat is ended. No more messages allowed") ∧
    chat.End.Messages = chat.Messages ∧
    chat.End.ErasedMessages = chat.ErasedMessages ∧
    chat.End.TokenUsage = chat.TokenUsage := by
  refine ⟨?_, rfl, rfl, rfl⟩
  induction later with
  | nil => rfl
  | cons message later ih =>
    have hcall : chat.End.AddMessage message =
        (chat.End, Result.error "chat is ended. No more messages allowed") := by
      simp [Chat.AddMessage, Chat.End]
    unfold Chat.AddMessages
    rw [hcall]
    simp only [List.length_cons, List.replicate_succ]
    rw [ih]

/-! ## The claims on the turn and on construction -/

/-- The role literal `assystant` given to `NewMessage` for the assistant turn
is not one of the three roles `Validate` accepts, so the last block of
`Execute` always stops at its first error and never reaches `SaveChat`. -/
theorem finishTurn_eq (useCase : ChatCompletionUseCase) (rt : Runtime) (chat : Chat)
    (fullResponse : String) :
    finishTurn useCase rt chat fullResponse =
      ([], .error "error creating assistant message: invalid role") := by
  have h1 : ¬ ("assystant" = "user") := by decide
  have h2 : ¬ ("assystant" = "system") := by decide
  have h3 : ¬ ("assystant" = "assistant") := by decide
  simp only [finishTurn, NewMessage, Message.Validate, ne_eq, h1, h2, h3, not_false_eq_true,
    and_self, if_true]
  rfl

/-- No run of `Execute` returns a terminal result. -/
theorem Execute_never_ok (useCase : ChatCompletionUseCase) (rt : Runtime)
    (input : ChatCompletionInputDTO) (out : ChatCompletionOutputDTO) :
    (Execute useCase rt input).2 ≠ .ok out := by
  unfold Execute
  split
  · simp
  · simp
  · split
    · simp
    · simp
    · split
      · simp
      · simp
      · simp only
        split
        · simp
        · split
          · simp
          · simp
          · rw [finishTurn_eq]
            simp

/-- C7, successful turn, on the code: the gateway finds the active chat of
budget 50 holding a system turn of 10 tokens, the user text `hi` is valid and
fits, and the stream delivers `Hel`, `lo` and the end marker. `Execute` emits
the two cumulative events and then returns the error `error creating assistant
message: invalid role`: no assistant message is added and `SaveChat` is not
called. -/
theorem C7_turn_fails_at_assistant_message :
    scenarioUseCase.ChatGateway.FindChatByID scenarioInput.ChatID = .ok scenarioChat ∧
    scenarioChat.Status = "active" ∧
    NewMessage scenarioRuntime.CountTokens scenarioRuntime.userMessageID
        scenarioRuntime.userMessageNow "user" scenarioInput.UserMessage
        scenarioChat.Config.Model = .ok scenarioUserTurn ∧
    scenarioChat.TokenUsage + scenarioUserTurn.Tokens ≤ scenarioChat.Config.Model.MaxTokens ∧
    Execute scenarioUseCase scenarioRuntime scenarioInput =
      ([Effect.FindChatByID "c0",
        Effect.CreateChatCompletionStream scenarioRequest,
        Effect.Send { ChatID := "c0", UserID := "u0", Content := "Hel" },
        Effect.Send { ChatID := "c0", UserID := "u0", Content := "Hello" }],
       .error "error creating assistant message: invalid role") :=
  ⟨rfl, by decide, by decide, by decide, by decide⟩

/-- C8, message validation: `NewMessage`, whose clock reading is never the
zero instant, returns an error if and only if the role is not one of system,
user, assistant or the content is empty; otherwise it returns the message
carrying the given role and content, with `Tokens` the tokenizer count of the
content for the model name. -/
theorem C8_message_validation (countTokens : String → String → GoInt) (id : String) (now : Time)
    (role content : String) (model : Model) (hnow : now.IsZero = false) :
    ((∃ err, NewMessage countTokens id now role content model = .error err) ↔
      (¬ (role = "system" ∨ role = "user" ∨ role = "assistant") ∨ content = "")) ∧
    (¬ (¬ (role = "system" ∨ role = "user" ∨ role = "assistant") ∨ content = "") →
      NewMessage countTokens id now role content model =
        .ok { ID := id, Role := role, Content := content,
              Tokens := countTokens model.Name content, Model := none, CreatedAt := now }) := by
  by_cases hrole : role = "system" ∨ role = "user" ∨ role = "assistant"
  · have hvalid : ¬ (role ≠ "user" ∧ role ≠ "system" ∧ role ≠ "assistant") := by
      rintro ⟨h1, h2, h3⟩
      rcases hrole with h | h | h
      · exact h2 h
      · exact h1 h
      · exact h3 h
    by_cases hcontent : content = ""
    · have hrun : NewMessage countTokens id now role content model
          = .error "content is empty" := by
        simp only [NewMessage, Message.Validate, if_neg hvalid, if_pos hcontent]
      refine ⟨⟨fun _ => Or.inr hcontent, fun _ => ⟨_, hrun⟩⟩, ?_⟩
      intro hno
      exact absurd (Or.inr hcontent) hno
    · have hrun : NewMessage countTokens id now role content model =
          .ok { ID := id, Role := role, Content := content,
                Tokens := countTokens model.Name content, Model := none, CreatedAt := now } := by
        simp only [NewMessage, Message.Validate, if_neg hvalid, if_neg hcontent, hnow,
          Model.GetModelName]
        rfl
      refine ⟨⟨?_, ?_⟩, fun _ => hrun⟩
      · rintro ⟨err, herr⟩
        rw [hrun] at herr
        exact absurd herr (by simp)
      · rintro (h | h)
        · exact absurd hrole h
        · exact absurd h hcontent
  · have hinvalid : role ≠ "user" ∧ role ≠ "system" ∧ role ≠ "assistant" :=
      ⟨fun h => hrole (Or.inr (Or.inl h)), fun h => hrole (Or.inl h),
        fun h => hrole (Or.inr (Or.inr h))⟩
    have hrun : NewMessage countTokens id now role content model = .error "invalid role" := by
      simp only [NewMessage, Message.Validate, if_pos hinvalid]
    refine ⟨⟨fun _ => Or.inl hrole, fun _ => ⟨_, hrun⟩⟩, ?_⟩
    intro hno
    exact absurd (Or.inl hrole) hno

theorem C8_message_validation_witness :
    scenarioRuntime.userMessageNow.IsZero = false ∧
    ((∃ err, NewMessage scenarioRuntime.CountTokens "m1" scenarioRuntime.userMessageNow "user"
        "hi" scenarioConfig.Model = .error err) ↔
      (¬ ("user" = "system" ∨ "user" = "user" ∨ "user" = "assistant") ∨ "hi" = "")) ∧
    (¬ (¬ ("user" = "system" ∨ "user" = "user" ∨ "user" = "assistant") ∨ "hi" = "") →
      NewMessage scenarioRuntime.CountTokens "m1" scenarioRuntime.userMessageNow "user" "hi"
          scenarioConfig.Model =
        .ok { ID := "m1", Role := "user", Content := "hi",
              Tokens := scenarioRuntime.CountTokens scenarioConfig.Model.Name "hi",
              Model := none, CreatedAt := scenarioRuntime.userMessageNow }) :=
  ⟨by decide,
    C8_message_validation scenarioRuntime.CountTokens "m1" scenarioRuntime.userMessageNow "user"
      "hi" scenarioConfig.Model (by decide)⟩

/-- When the initial system message fits the model budget, `NewChat` returns
a validation error (no chat, no panic) as soon as the user id is empty or the
temperature is below 0 or above 2. -/
theorem NewChat_rejects_when_fits (id userID : String) (sys : Message) (config : ChatConfig)
    (hfit : sys.Tokens ≤ config.Model.MaxTokens)
    (hbad : userID = "" ∨ config.Temperature.lt (.finite 0) = true ∨
      (Float32.finite 2).lt config.Temperature = true) :
    NewChat id userID sys config = .error "user id is empty" ∨
    NewChat id userID sys config = .error "invalid temperature" := by
  have hactive : ¬ ("active" ≠ "active" ∧ "active" ≠ "ended") := by decide
  have hge : config.Model.MaxTokens ≥ sys.Tokens + 0 := by
    rw [goInt_add_zero]
    exact hfit
  rw [NewChat_eq, if_pos hge]
  by_cases huser : userID = ""
  · left
    simp [Chat.Validate, huser]
  · right
    rcases hbad with h | h | h
    · exact absurd h huser
    · simp [Chat.Validate, huser, h]
    · simp [Chat.Validate, huser, h]

/-- C9, chat validation, on the code: with a model budget of 5 and an initial
system message of 10 tokens, `NewChat` with an empty user id, and `NewChat`
with a temperature of 3, return no validation error: the `AddMessage` call
that precedes `Validate` panics on the empty window. -/
theorem C9_oversized_system_message_panics_before_validation :
    smallBudgetConfig.Model.MaxTokens < systemTurn.Tokens ∧
    NewChat "c0" "" systemTurn smallBudgetConfig =
      .panic "runtime error: index out of range [0] with length 0" ∧
    NewChat "c0" "u0" systemTurn { smallBudgetConfig with Temperature := .finite 3 } =
      .panic "runtime error: index out of range [0] with length 0" := by
  decide

/-- C10, chat creation postcondition: a chat returned by
`NewChat(userId, sys, config)` has `Status` active, `Messages` exactly `[sys]`,
`ErasedMessages` empty, `TokenUsage` equal to `sys.Tokens`, and the given
`userId` and `config` (and the generated identifier and `sys` as its
`InitialSystemMessage`). -/
theorem C10_new_chat_postcondition (id userID : String) (sys : Message) (config : ChatConfig)
    (chat : Chat) (hnew : NewChat id userID sys config = .ok chat) :
    chat.Status = "active" ∧ chat.Messages = [sys] ∧ chat.ErasedMessages = [] ∧
    chat.TokenUsage = sys.Tokens ∧ chat.UserID = userID ∧ chat.Config = config ∧
    chat.ID = id ∧ chat.InitialSystemMessage = sys := by
  rw [NewChat_ok id userID sys config chat hnew]
  exact ⟨rfl, rfl, rfl, rfl, rfl, rfl, rfl, rfl⟩

theorem C10_new_chat_postcondition_witness :
    NewChat "c0" "u0" systemTurn scenarioConfig = .ok scenarioChat ∧
    (scenarioChat.Status = "active" ∧ scenarioChat.Messages = [systemTurn] ∧
      scenarioChat.ErasedMessages = [] ∧ scenarioChat.TokenUsage = systemTurn.Tokens ∧
      scenarioChat.UserID = "u0" ∧ scenarioChat.Config = scenarioConfig ∧
      scenarioChat.ID = "c0" ∧ scenarioChat.InitialSystemMessage = systemTurn) :=
  ⟨by decide,
    C10_new_chat_postcondition "c0" "u0" systemTurn scenarioConfig scenarioChat (by decide)⟩

/-! ## What a turn does -/

theorem foldl_fragments (fragments : List String) (start : String) :
    fragments.foldl (fun text fragment => text ++ fragment) start
      = start ++ concatFragments fragments := by
  induction fragments generalizing start with
  | nil => simp [concatFragments]
  | cons first rest ih =>
    simp only [concatFragments, List.foldl_cons]
    rw [ih, ih ("" ++ first), String.empty_append, String.append_assoc]

theorem concatFragments_cons (first : String) (rest : List String) :
    concatFragments (first :: rest) = first ++ concatFragments rest := by
  unfold concatFragments
  rw [List.foldl_cons, foldl_fragments rest ("" ++ first), String.empty_append]
  rfl

/-- The receive loop on a stream whose `i`-th response carries the fragment
`fi` as its first choice: it sends the cumulative texts, then ends as the
stream ends. -/
theorem recvLoop_fragments (chat : Chat) (ending : StreamEnd) :
    ∀ (fragments : List String) (responses : List ChatCompletionStreamResponse) (text : String),
      responses.map (fun response => response.Choices.head?) = fragments.map some →
      recvLoop chat ending responses text =
        ((List.range fragments.length).map
            (fun i => eventOf chat (text ++ concatFragments (fragments.take (i + 1)))),
          match ending with
          | .eof => .ok (text ++ concatFragments fragments)
          | .failed err => .error ("error streaming response: " ++ err)) := by
  intro fragments
  induction fragments with
  | nil =>
    intro responses text hfrag
    have hnil : responses = [] := by simpa using hfrag
    subst hnil
    cases ending <;> simp [recvLoop, concatFragments]
  | cons first rest ih =>
    intro responses text hfrag
    cases responses with
    | nil => simp at hfrag
    | cons response later =>
      simp only [List.map_cons, List.cons.injEq] at hfrag
      obtain ⟨hhead, hlater⟩ := hfrag
      cases hchoices : response.Choices with
      | nil => simp [hchoices] at hhead
      | cons content others =>
        have hcontent : content = first := by simpa [hchoices] using hhead
        subst hcontent
        unfold recvLoop
        simp only [hchoices]
        rw [ih later (text ++ content) hlater]
        refine Prod.ext ?_ ?_
        · simp only [List.length_cons, List.range_succ_eq_map, List.map_cons, List.map_map]
          refine congrArg₂ List.cons ?_ ?_
          · simp [eventOf, concatFragments_cons, concatFragments]
          · apply List.map_congr_left
            intro i _
            simp [eventOf, concatFragments_cons, String.append_assoc]
        · cases ending <;> simp [concatFragments_cons, String.append_assoc]

/-- Every effect of the receive loop is a value written to the channel. -/
theorem recvLoop_sends (chat : Chat) (ending : StreamEnd) :
    ∀ (responses : List ChatCompletionStreamResponse) (text : String),
      ∀ e ∈ (recvLoop chat ending responses text).1, e.isSend = true := by
  intro responses
  induction responses with
  | nil =>
    intro text e he
    cases ending <;> simp [recvLoop] at he
  | cons response later ih =>
    intro text e he
    unfold recvLoop at he
    split at he
    · simp at he
    · next content others _ =>
      simp only [List.mem_cons] at he
      rcases he with rfl | he
      · rfl
      · exact ih _ e he

/-- The first block of `Execute`, case by case. -/
theorem locateChat_cases (useCase : ChatCompletionUseCase) (rt : Runtime)
    (input : ChatCompletionInputDTO) :
    (∃ chat, useCase.ChatGateway.FindChatByID input.ChatID = .ok chat ∧
      locateChat useCase rt input = ([Effect.FindChatByID input.ChatID], .ok chat)) ∨
    (∃ err, useCase.ChatGateway.FindChatByID input.ChatID = .error err ∧
      err ≠ "chat not found" ∧
      locateChat useCase rt input =
        ([Effect.FindChatByID input.ChatID], .error ("error fetching chat: " ++ err))) ∨
    (useCase.ChatGateway.FindChatByID input.ChatID = .error "chat not found" ∧
      ((∃ msg, CreateNewChat rt input = .panic msg ∧
          locateChat useCase rt input = ([Effect.FindChatByID input.ChatID], .panic msg)) ∨
       (∃ err, CreateNewChat rt input = .error err ∧
          locateChat useCase rt input =
            ([Effect.FindChatByID input.ChatID],
              .error ("error creating new chat: " ++ err))) ∨
       (∃ chat err, CreateNewChat rt input = .ok chat ∧
          useCase.ChatGateway.CreateChat chat = some err ∧
          locateChat useCase rt input =
            ([Effect.FindChatByID input.ChatID, Effect.CreateChat chat],
              .error ("error persisting new chat: " ++ err))) ∨
       (∃ chat, CreateNewChat rt input = .ok chat ∧
          useCase.ChatGateway.CreateChat chat = none ∧
          locateChat useCase rt input =
            ([Effect.FindChatByID input.ChatID, Effect.CreateChat chat], .ok chat)))) := by
  unfold locateChat
  cases hfind : useCase.ChatGateway.FindChatByID input.ChatID with
  | ok chat => exact Or.inl ⟨chat, rfl, rfl⟩
  | error err =>
    right
    by_cases hnot : err = "chat not found"
    · right
      subst hnot
      refine ⟨rfl, ?_⟩
      simp only [if_true]
      cases hnew : CreateNewChat rt input with
      | panic msg => exact Or.inl ⟨msg, rfl, rfl⟩
      | error err => exact Or.inr (Or.inl ⟨err, rfl, rfl⟩)
      | ok chat =>
        right; right
        cases hcreate : useCase.ChatGateway.CreateChat chat with
        | some err => exact Or.inl ⟨chat, err, rfl, hcreate, by simp only [hcreate]⟩
        | none => exact Or.inr ⟨chat, rfl, hcreate, by simp only [hcreate]⟩
    · left
      exact ⟨err, rfl, hnot, by simp [hnot]⟩

/-- The run of `Execute` once the chat is located, the user turn is added and
the completion stream is opened: the effects up to the request, then those of
the receive loop; a stream read to its end is followed by the failure to
build the assistant message. -/
theorem Execute_of_stream (useCase : ChatCompletionUseCase) (rt : Runtime)
    (input : ChatCompletionInputDTO) (located : List Effect) (found chat : Chat)
    (userMessage : Message) (res : ChatCompletionStream)
    (hlocate : locateChat useCase rt input = (located, .ok found))
    (huser : NewMessage rt.CountTokens rt.userMessageID rt.userMessageNow "user"
      input.UserMessage found.Config.Model = .ok userMessage)
    (hadd : found.AddMessage userMessage = (chat, .ok ()))
    (hopen : useCase.OpenAIClient (requestOf chat) = .ok res) :
    Execute useCase rt input =
      (located ++ [Effect.CreateChatCompletionStream (requestOf chat)]
          ++ (recvLoop chat res.ending res.responses "").1,
        match (recvLoop chat res.ending res.responses "").2 with
        | .panic msg => .panic msg
        | .error err => .error err
        | .ok _ => .error "error creating assistant message: invalid role") := by
  have hopen2 : useCase.OpenAIClient
      { Model := chat.Config.Model.Name,
        Messages := projectMessages chat.Messages,
        MaxTokens := chat.Config.MaxTokens,
        Temperature := chat.Config.Temperature,
        TopP := chat.Config.TopP,
        N := chat.Config.N,
        Stop := chat.Config.Stop,
        PresencePenalty := chat.Config.PresencePenalty,
        FrequencyPenalty := chat.Config.FrequencyPenalty,
        Stream := true } = .ok res := hopen
  unfold Execute
  simp only [hlocate, huser, hadd, hopen2]
  rcases hloop : recvLoop chat res.ending res.responses "" with ⟨sent, outcome⟩
  cases outcome with
  | panic msg => rfl
  | error err => rfl
  | ok fullResponse =>
    simp only [finishTurn_eq, List.append_nil]
    rfl

/-- The first block of `Execute` calls the gateway only: `FindChatByID`, then
possibly `CreateChat`. -/
theorem locateChat_effects (useCase : ChatCompletionUseCase) (rt : Runtime)
    (input : ChatCompletionInputDTO) :
    (locateChat useCase rt input).1 = [Effect.FindChatByID input.ChatID] ∨
    ∃ chat, useCase.ChatGateway.FindChatByID input.ChatID = .error "chat not found" ∧
      CreateNewChat rt input = .ok chat ∧
      (locateChat useCase rt input).1
        = [Effect.FindChatByID input.ChatID, Effect.CreateChat chat] := by
  rcases locateChat_cases useCase rt input with ⟨_, _, h⟩ | ⟨_, _, _, h⟩ |
    ⟨hfind, ⟨_, _, h⟩ | ⟨_, _, h⟩ | ⟨chat, _, hnew, _, h⟩ | ⟨chat, hnew, _, h⟩⟩
  · exact Or.inl (by rw [h])
  · exact Or.inl (by rw [h])
  · exact Or.inl (by rw [h])
  · exact Or.inl (by rw [h])
  · exact Or.inr ⟨chat, hfind, hnew, by rw [h]⟩
  · exact Or.inr ⟨chat, hfind, hnew, by rw [h]⟩

/-- A run of `Execute` that does not locate a chat ends where the first block
ends. -/
theorem Execute_of_locate_error (useCase : ChatCompletionUseCase) (rt : Runtime)
    (input : ChatCompletionInputDTO) (located : List Effect) (err : String)
    (hlocate : locateChat useCase rt input = (located, .error err)) :
    Execute useCase rt input = (located, .error err) := by
  unfold Execute
  simp only [hlocate]

/-- After the first block, `Execute` only calls the completion capability and
writes to the channel. -/
theorem Execute_effects (useCase : ChatCompletionUseCase) (rt : Runtime)
    (input : ChatCompletionInputDTO) :
    ∃ rest, (Execute useCase rt input).1 = (locateChat useCase rt input).1 ++ rest ∧
      ∀ e ∈ rest, e.isCompletionRequest = true ∨ e.isSend = true := by
  rcases hlocate : locateChat useCase rt input with ⟨located, outcome⟩
  cases outcome with
  | panic msg => exact ⟨[], by simp [Execute, hlocate], by simp⟩
  | error err => exact ⟨[], by simp [Execute, hlocate], by simp⟩
  | ok found =>
    cases huser : NewMessage rt.CountTokens rt.userMessageID rt.userMessageNow "user"
        input.UserMessage found.Config.Model with
    | panic msg => exact ⟨[], by simp [Execute, hlocate, huser], by simp⟩
    | error err => exact ⟨[], by simp [Execute, hlocate, huser], by simp⟩
    | ok userMessage =>
      rcases hadd : found.AddMessage userMessage with ⟨chat, added⟩
      cases added with
      | panic msg => exact ⟨[], by simp [Execute, hlocate, huser, hadd], by simp⟩
      | error err => exact ⟨[], by simp [Execute, hlocate, huser, hadd], by simp⟩
      | ok u =>
        cases hopen : useCase.OpenAIClient (requestOf chat) with
        | error err =>
          have hopen2 : useCase.OpenAIClient
              { Model := chat.Config.Model.Name,
                Messages := projectMessages chat.Messages,
                MaxTokens := chat.Config.MaxTokens,
                Temperature := chat.Config.Temperature,
                TopP := chat.Config.TopP,
                N := chat.Config.N,
                Stop := chat.Config.Stop,
                PresencePenalty := chat.Config.PresencePenalty,
                FrequencyPenalty := chat.Config.FrequencyPenalty,
                Stream := true } = .error err := hopen
          refine ⟨[Effect.CreateChatCompletionStream (requestOf chat)], ?_, ?_⟩
          · simp only [Execute, hlocate, huser, hadd, hopen2]
            rfl
          · intro e he
            simp only [List.mem_singleton] at he
            subst he
            exact Or.inl rfl
        | ok res =>
          refine ⟨Effect.CreateChatCompletionStream (requestOf chat)
            :: (recvLoop chat res.ending res.responses "").1, ?_, ?_⟩
          · rw [Execute_of_stream useCase rt input located found chat userMessage res hlocate
              huser hadd hopen]
            simp
          · intro e he
            rcases List.mem_cons.mp he with rfl | he
            · exact Or.inl rfl
            · exact Or.inr (recvLoop_sends chat res.ending res.responses "" e he)

/-- No run of `Execute` reaches `SaveChat`. -/
theorem Execute_never_saves (useCase : ChatCompletionUseCase) (rt : Runtime)
    (input : ChatCompletionInputDTO) (saved : Chat) :
    Effect.SaveChat saved ∉ (Execute useCase rt input).1 := by
  obtain ⟨rest, heffects, hrest⟩ := Execute_effects useCase rt input
  rw [heffects]
  intro hmem
  rcases List.mem_append.mp hmem with hloc | hlater
  · rcases locateChat_effects useCase rt input with h | ⟨chat, _, _, h⟩
    · rw [h] at hloc
      simp at hloc
    · rw [h] at hloc
      simp at hloc
  · rcases hrest _ hlater with h | h
    · simp [Effect.isCompletionRequest] at h
    · simp [Effect.isSend] at h

/-- The first block of `Execute` writes nothing to the channel. -/
theorem locateChat_no_send (useCase : ChatCompletionUseCase) (rt : Runtime)
    (input : ChatCompletionInputDTO) :
    (locateChat useCase rt input).1.filter Effect.isSend = [] := by
  rcases locateChat_effects useCase rt input with h | ⟨chat, _, _, h⟩
  · rw [h]
    rfl
  · rw [h]
    rfl

theorem filter_isSend_cumulativeEvents (chat : Chat) (fragments : List String) :
    (cumulativeEvents chat fragments).filter Effect.isSend = cumulativeEvents chat fragments := by
  rw [List.filter_eq_self]
  intro e he
  simp only [cumulativeEvents, List.mem_map] at he
  obtain ⟨i, _, rfl⟩ := he
  rfl

/-- The run of `Execute` on a stream whose `i`-th response carries the
fragment `fi`: the effects, and the outcome by the ending of the stream. -/
theorem Execute_of_fragments (useCase : ChatCompletionUseCase) (rt : Runtime)
    (input : ChatCompletionInputDTO) (located : List Effect) (found chat : Chat)
    (userMessage : Message) (res : ChatCompletionStream) (fragments : List String)
    (hlocate : locateChat useCase rt input = (located, .ok found))
    (huser : NewMessage rt.CountTokens rt.userMessageID rt.userMessageNow "user"
      input.UserMessage found.Config.Model = .ok userMessage)
    (hadd : found.AddMessage userMessage = (chat, .ok ()))
    (hopen : useCase.OpenAIClient (requestOf chat) = .ok res)
    (hfragments : res.responses.map (fun response => response.Choices.head?)
      = fragments.map some) :
    Execute useCase rt input =
      (located ++ [Effect.CreateChatCompletionStream (requestOf chat)]
          ++ cumulativeEvents chat fragments,
        match res.ending with
        | .eof => .error "error creating assistant message: invalid role"
        | .failed err => .error ("error streaming response: " ++ err)) := by
  rw [Execute_of_stream useCase rt input located found chat userMessage res hlocate huser hadd
    hopen, recvLoop_fragments chat res.ending fragments res.responses "" hfragments]
  refine Prod.ext ?_ ?_
  · simp [cumulativeEvents, String.empty_append]
  · cases res.ending <;> rfl

/-- The channel values of a run of `Execute` on a stream of fragments. -/
theorem Execute_sends_of_fragments (useCase : ChatCompletionUseCase) (rt : Runtime)
    (input : ChatCompletionInputDTO) (located : List Effect) (found chat : Chat)
    (userMessage : Message) (res : ChatCompletionStream) (fragments : List String)
    (hlocate : locateChat useCase rt input = (located, .ok found))
    (huser : NewMessage rt.CountTokens rt.userMessageID rt.userMessageNow "user"
      input.UserMessage found.Config.Model = .ok userMessage)
    (hadd : found.AddMessage userMessage = (chat, .ok ()))
    (hopen : useCase.OpenAIClient (requestOf chat) = .ok res)
    (hfragments : res.responses.map (fun response => response.Choices.head?)
      = fragments.map some) :
    (Execute useCase rt input).1.filter Effect.isSend = cumulativeEvents chat fragments := by
  have hloc := locateChat_no_send useCase rt input
  rw [hlocate] at hloc
  simp only at hloc
  rw [Execute_of_fragments useCase rt input located found chat userMessage res fragments hlocate
    huser hadd hopen hfragments]
  simp only [List.filter_append, hloc, filter_isSend_cumulativeEvents, List.nil_append]
  rfl

/-- A successful `AddMessage` keeps every field but the window, the erased
log and the usage. -/
theorem AddMessage_ok_shape (chat : Chat) (message : Message) (after : Chat)
    (hok : chat.AddMessage message = (after, .ok ())) :
    ∃ k, k ≤ chat.Messages.length ∧
      after = { chat with Messages := chat.Messages.drop k ++ [message],
                          ErasedMessages := chat.ErasedMessages ++ chat.Messages.take k,
                          TokenUsage := tokenUsageOf (chat.Messages.drop k ++ [message]) } := by
  have hloop := AddMessage_ok_loop chat message after hok
  rcases addMessageLoop_shape chat message chat.Messages chat.ErasedMessages chat.TokenUsage
    with ⟨k, hk, hrun⟩ | hrun
  · rw [hrun] at hloop
    exact ⟨k, hk, (congrArg Prod.fst hloop).symm⟩
  · rw [hrun] at hloop
    exact absurd (congrArg Prod.snd hloop) (by simp)

/-! ## The claims on the streaming turn -/

/-- C11, stream failure: when the completion stream delivers `k` fragments and
then fails with an error that is not the end of the stream, `Execute` returns
the fatal streaming error and no result, never calls `SaveChat`, and has
emitted exactly the `k` cumulative events. -/
theorem C11_stream_failure (useCase : ChatCompletionUseCase) (rt : Runtime)
    (input : ChatCompletionInputDTO) (located : List Effect) (found chat : Chat)
    (userMessage : Message) (res : ChatCompletionStream) (fragments : List String)
    (err : String)
    (hlocate : locateChat useCase rt input = (located, .ok found))
    (huser : NewMessage rt.CountTokens rt.userMessageID rt.userMessageNow "user"
      input.UserMessage found.Config.Model = .ok userMessage)
    (hadd : found.AddMessage userMessage = (chat, .ok ()))
    (hopen : useCase.OpenAIClient (requestOf chat) = .ok res)
    (hfragments : res.responses.map (fun response => response.Choices.head?)
      = fragments.map some)
    (hfail : res.ending = .failed err) :
    (Execute useCase rt input).2 = .error ("error streaming response: " ++ err) ∧
    (∀ saved, Effect.SaveChat saved ∉ (Execute useCase rt input).1) ∧
    (Execute useCase rt input).1.filter Effect.isSend = cumulativeEvents chat fragments ∧
    ((Execute useCase rt input).1.filter Effect.isSend).length = fragments.length := by
  have hsends := Execute_sends_of_fragments useCase rt input located found chat userMessage res
    fragments hlocate huser hadd hopen hfragments
  refine ⟨?_, Execute_never_saves useCase rt input, hsends, ?_⟩
  · rw [Execute_of_fragments useCase rt input located found chat userMessage res fragments
      hlocate huser hadd hopen hfragments, hfail]
  · rw [hsends]
    simp [cumulativeEvents]

theorem C11_stream_failure_witness :
    locateChat failingStreamUseCase scenarioRuntime scenarioInput
      = ([Effect.FindChatByID "c0"], .ok scenarioChat) ∧
    failingStream.responses.map (fun response => response.Choices.head?)
      = ["Hel", "lo"].map some ∧
    ((Execute failingStreamUseCase scenarioRuntime scenarioInput).2
        = .error ("error streaming response: " ++ "connection reset") ∧
      (∀ saved,
        Effect.SaveChat saved ∉ (Execute failingStreamUseCase scenarioRuntime scenarioInput).1) ∧
      (Execute failingStreamUseCase scenarioRuntime scenarioInput).1.filter Effect.isSend
        = cumulativeEvents scenarioChatWithUser ["Hel", "lo"] ∧
      ((Execute failingStreamUseCase scenarioRuntime scenarioInput).1.filter
        Effect.isSend).length = ["Hel", "lo"].length) :=
  ⟨by decide, by decide,
    C11_stream_failure failingStreamUseCase scenarioRuntime scenarioInput
      [Effect.FindChatByID "c0"] scenarioChat scenarioChatWithUser scenarioUserTurn failingStream
      ["Hel", "lo"] "connection reset" (by decide) (by decide) (by decide) rfl (by decide) rfl⟩

/-- After the first block `Execute` never calls `CreateChat`. -/
theorem Execute_rest_no_createChat (rest : List Effect)
    (hrest : ∀ e ∈ rest, e.isCompletionRequest = true ∨ e.isSend = true) :
    ∀ e ∈ rest, e.isCreateChat = false := by
  intro e he
  rcases hrest e he with h | h
  · cases e <;> simp_all [Effect.isCompletionRequest, Effect.isCreateChat]
  · cases e <;> simp_all [Effect.isSend, Effect.isCreateChat]

/-- A chat built by `CreateNewChat` holds its system turn and nothing else. -/
theorem CreateNewChat_messages (rt : Runtime) (input : ChatCompletionInputDTO) (chat : Chat)
    (hnew : CreateNewChat rt input = .ok chat) :
    chat.Messages = [chat.InitialSystemMessage] ∧ chat.ErasedMessages = [] := by
  unfold CreateNewChat at hnew
  simp only at hnew
  split at hnew
  · exact absurd hnew (by simp)
  · exact absurd hnew (by simp)
  · next initialMessage _ =>
    split at hnew
    · exact absurd hnew (by simp)
    · exact absurd hnew (by simp)
    · next built hbuilt =>
      have hchat : built = chat := Result.ok.inj hnew
      subst hchat
      rw [NewChat_ok _ _ _ _ _ hbuilt]
      exact ⟨rfl, rfl⟩

/-- C12, locate-or-create, as the code has it. When `FindChatByID` returns a
chat, `Execute` never calls `CreateChat`. When it reports not-found and
`CreateNewChat` builds the new chat, `Execute` calls `CreateChat` exactly
once, with that chat (holding only its system turn), right after the lookup.
When it reports not-found and `CreateNewChat` returns an error, `Execute`
returns a fatal error having called `FindChatByID` only. When the lookup fails
with any other error, `Execute` returns a fatal error having called
`FindChatByID` only: no `CreateChat`, no completion request, no `SaveChat`. -/
theorem C12_locate_or_create (useCase : ChatCompletionUseCase) (rt : Runtime)
    (input : ChatCompletionInputDTO) :
    (∀ chat, useCase.ChatGateway.FindChatByID input.ChatID = .ok chat →
      ∀ e ∈ (Execute useCase rt input).1, e.isCreateChat = false) ∧
    (∀ chat, useCase.ChatGateway.FindChatByID input.ChatID = .error "chat not found" →
      CreateNewChat rt input = .ok chat →
      chat.Messages = [chat.InitialSystemMessage] ∧
      ∃ rest, (Execute useCase rt input).1
          = Effect.FindChatByID input.ChatID :: Effect.CreateChat chat :: rest ∧
        ∀ e ∈ rest, e.isCreateChat = false) ∧
    (∀ err, useCase.ChatGateway.FindChatByID input.ChatID = .error "chat not found" →
      CreateNewChat rt input = .error err →
      Execute useCase rt input =
        ([Effect.FindChatByID input.ChatID], .error ("error creating new chat: " ++ err))) ∧
    (∀ err, useCase.ChatGateway.FindChatByID input.ChatID = .error err →
      err ≠ "chat not found" →
      Execute useCase rt input =
        ([Effect.FindChatByID input.ChatID], .error ("error fetching chat: " ++ err))) := by
  obtain ⟨rest, heffects, hrest⟩ := Execute_effects useCase rt input
  have hnone := Execute_rest_no_createChat rest hrest
  refine ⟨?_, ?_, ?_, ?_⟩
  · intro chat hfind e he
    have hloc : (locateChat useCase rt input).1 = [Effect.FindChatByID input.ChatID] := by
      simp only [locateChat, hfind]
    rw [heffects, hloc] at he
    rcases List.mem_append.mp he with h | h
    · simp only [List.mem_singleton] at h
      subst h
      rfl
    · exact hnone e h
  · intro chat hfind hnew
    refine ⟨(CreateNewChat_messages rt input chat hnew).1, rest, ?_, hnone⟩
    have hloc : (locateChat useCase rt input).1
        = [Effect.FindChatByID input.ChatID, Effect.CreateChat chat] := by
      simp only [locateChat, hfind, hnew, if_true]
      cases useCase.ChatGateway.CreateChat chat <;> rfl
    rw [heffects, hloc]
    rfl
  · intro err hfind hnew
    apply Execute_of_locate_error
    simp only [locateChat, hfind, hnew, if_true]
  · intro err hfind hne
    apply Execute_of_locate_error
    simp only [locateChat, hfind, if_neg hne]

theorem C12_locate_or_create_witness :
    (scenarioUseCase.ChatGateway.FindChatByID scenarioInput.ChatID = .ok scenarioChat ∧
      ∀ e ∈ (Execute scenarioUseCase scenarioRuntime scenarioInput).1, e.isCreateChat = false) ∧
    (notFoundUseCase.ChatGateway.FindChatByID scenarioInput.ChatID = .error "chat not found" ∧
      CreateNewChat scenarioRuntime scenarioInput = .ok createdChat ∧
      createdChat.Messages = [createdChat.InitialSystemMessage] ∧
      ∃ rest, (Execute notFoundUseCase scenarioRuntime scenarioInput).1
          = Effect.FindChatByID scenarioInput.ChatID :: Effect.CreateChat createdChat :: rest ∧
        ∀ e ∈ rest, e.isCreateChat = false) ∧
    (CreateNewChat scenarioRuntime emptySystemInput
        = .error "error creating initial message: content is empty" ∧
      Execute notFoundUseCase scenarioRuntime emptySystemInput =
        ([Effect.FindChatByID emptySystemInput.ChatID],
          .error ("error creating new chat: "
            ++ "error creating initial message: content is empty"))) ∧
    (brokenLookupUseCase.ChatGateway.FindChatByID scenarioInput.ChatID
        = .error "connection refused" ∧
      Execute brokenLookupUseCase scenarioRuntime scenarioInput =
        ([Effect.FindChatByID scenarioInput.ChatID],
          .error ("error fetching chat: " ++ "connection refused"))) :=
  ⟨⟨rfl, (C12_locate_or_create scenarioUseCase scenarioRuntime scenarioInput).1 scenarioChat rfl⟩,
    ⟨rfl, by decide,
      (C12_locate_or_create notFoundUseCase scenarioRuntime scenarioInput).2.1 createdChat rfl
        (by decide)⟩,
    ⟨by decide,
      (C12_locate_or_create notFoundUseCase scenarioRuntime emptySystemInput).2.2.1
        "error creating initial message: content is empty" rfl (by decide)⟩,
    ⟨rfl,
      (C12_locate_or_create brokenLookupUseCase scenarioRuntime scenarioInput).2.2.2
        "connection refused" rfl (by decide)⟩⟩

/-- C12 as stated fails: the gateway reports not-found, the configured initial
system message is empty, and `Execute` returns a fatal error after the lookup
without a single call of `CreateChat`. -/
theorem C12_not_found_without_CreateChat :
    notFoundUseCase.ChatGateway.FindChatByID emptySystemInput.ChatID
      = .error "chat not found" ∧
    Execute notFoundUseCase scenarioRuntime emptySystemInput =
      ([Effect.FindChatByID "c0"],
        .error "error creating new chat: error creating initial message: content is empty") ∧
    ¬ ((Execute notFoundUseCase scenarioRuntime emptySystemInput).1.filter
        Effect.isCreateChat).length = 1 :=
  ⟨rfl, by decide, by decide⟩

theorem concatFragments_append (front back : List String) :
    concatFragments (front ++ back) = concatFragments front ++ concatFragments back := by
  unfold concatFragments
  rw [List.foldl_append, foldl_fragments back]
  rfl

/-- C13, cumulative events: for fragments `f1 .. fn` delivered by the
completion stream, `Execute` writes exactly `n` events to the channel, in
order; the `i`-th carries the chat `ID` and `UserID` and the content
`f1 ++ ... ++ fi`, the cumulative text, so that the content of each event
starts the content of the next. -/
theorem C13_cumulative_events (useCase : ChatCompletionUseCase) (rt : Runtime)
    (input : ChatCompletionInputDTO) (located : List Effect) (found chat : Chat)
    (userMessage : Message) (res : ChatCompletionStream) (fragments : List String)
    (hlocate : locateChat useCase rt input = (located, .ok found))
    (huser : NewMessage rt.CountTokens rt.userMessageID rt.userMessageNow "user"
      input.UserMessage found.Config.Model = .ok userMessage)
    (hadd : found.AddMessage userMessage = (chat, .ok ()))
    (hopen : useCase.OpenAIClient (requestOf chat) = .ok res)
    (hfragments : res.responses.map (fun response => response.Choices.head?)
      = fragments.map some) :
    ((Execute useCase rt input).1.filter Effect.isSend).length = fragments.length ∧
    (∀ i, i < fragments.length →
      ((Execute useCase rt input).1.filter Effect.isSend)[i]? =
        some (Effect.Send { ChatID := found.ID, UserID := found.UserID,
                            Content := concatFragments (fragments.take (i + 1)) })) ∧
    (∀ i, ∃ delta, concatFragments (fragments.take (i + 2))
      = concatFragments (fragments.take (i + 1)) ++ delta) := by
  have hsends := Execute_sends_of_fragments useCase rt input located found chat userMessage res
    fragments hlocate huser hadd hopen hfragments
  obtain ⟨k, _, hchat⟩ := AddMessage_ok_shape found userMessage chat hadd
  have hid : chat.ID = found.ID := by rw [hchat]
  have huid : chat.UserID = found.UserID := by rw [hchat]
  refine ⟨?_, ?_, ?_⟩
  · rw [hsends]
    simp [cumulativeEvents]
  · intro i hi
    rw [hsends]
    simp only [cumulativeEvents, List.getElem?_map, List.getElem?_range hi, Option.map_some',
      eventOf, hid, huid]
  · intro i
    refine ⟨concatFragments ((fragments.drop (i + 1)).take 1), ?_⟩
    rw [← concatFragments_append, ← List.take_add]

theorem C13_cumulative_events_witness :
    locateChat scenarioUseCase scenarioRuntime scenarioInput
      = ([Effect.FindChatByID "c0"], .ok scenarioChat) ∧
    helloStream.responses.map (fun response => response.Choices.head?)
      = ["Hel", "lo"].map some ∧
    (Execute scenarioUseCase scenarioRuntime scenarioInput).1.filter Effect.isSend
      = [Effect.Send { ChatID := "c0", UserID := "u0", Content := "Hel" },
         Effect.Send { ChatID := "c0", UserID := "u0", Content := "Hello" }] ∧
    (((Execute scenarioUseCase scenarioRuntime scenarioInput).1.filter Effect.isSend).length
        = ["Hel", "lo"].length ∧
      (∀ i, i < ["Hel", "lo"].length →
        ((Execute scenarioUseCase scenarioRuntime scenarioInput).1.filter Effect.isSend)[i]? =
          some (Effect.Send { ChatID := scenarioChat.ID, UserID := scenarioChat.UserID,
                              Content := concatFragments (["Hel", "lo"].take (i + 1)) })) ∧
      (∀ i, ∃ delta, concatFragments (["Hel", "lo"].take (i + 2))
        = concatFragments (["Hel", "lo"].take (i + 1)) ++ delta)) :=
  ⟨by decide, by decide, by decide,
    C13_cumulative_events scenarioUseCase scenarioRuntime scenarioInput
      [Effect.FindChatByID "c0"] scenarioChat scenarioChatWithUser scenarioUserTurn helloStream
      ["Hel", "lo"] (by decide) (by decide) (by decide) rfl (by decide)⟩

/-- C14, no durable write on failure: in a run of `Execute` that returns an
error, no `SaveChat` completed successfully, and `CreateChat` was called at
most once and only when the lookup reported not-found; in every run
`SaveChat` is called at most once and only as the last step. -/
theorem C14_no_durable_write_on_failure (useCase : ChatCompletionUseCase) (rt : Runtime)
    (input : ChatCompletionInputDTO) (err : String)
    (_hfail : (Execute useCase rt input).2 = .error err) :
    (∀ chat, Effect.SaveChat chat ∈ (Execute useCase rt input).1 →
      useCase.ChatGateway.SaveChat chat ≠ none) ∧
    ((Execute useCase rt input).1.filter Effect.isCreateChat).length ≤ 1 ∧
    (∀ chat, Effect.CreateChat chat ∈ (Execute useCase rt input).1 →
      useCase.ChatGateway.FindChatByID input.ChatID = .error "chat not found") ∧
    ((Execute useCase rt input).1.filter Effect.isSaveChat).length ≤ 1 ∧
    (∀ chat, Effect.SaveChat chat ∈ (Execute useCase rt input).1 →
      (Execute useCase rt input).1.getLast? = some (Effect.SaveChat chat)) := by
  have hnever := Execute_never_saves useCase rt input
  obtain ⟨rest, heffects, hrest⟩ := Execute_effects useCase rt input
  have hnone := Execute_rest_no_createChat rest hrest
  have hfilter : rest.filter Effect.isCreateChat = [] := by
    rw [List.filter_eq_nil_iff]
    intro e he
    simp [hnone e he]
  refine ⟨fun chat h => absurd h (hnever chat), ?_, ?_, ?_,
    fun chat h => absurd h (hnever chat)⟩
  · rw [heffects, List.filter_append, hfilter, List.append_nil]
    rcases locateChat_effects useCase rt input with h | ⟨chat, _, _, h⟩
    · rw [h]
      simp [Effect.isCreateChat]
    · rw [h]
      simp [Effect.isCreateChat]
  · intro chat hmem
    rw [heffects] at hmem
    rcases List.mem_append.mp hmem with hloc | hlater
    · rcases locateChat_effects useCase rt input with h | ⟨_, hfind, _, _⟩
      · rw [h] at hloc
        simp at hloc
      · exact hfind
    · have := hnone _ hlater
      simp [Effect.isCreateChat] at this
  · have hzero : (Execute useCase rt input).1.filter Effect.isSaveChat = [] := by
      rw [List.filter_eq_nil_iff]
      intro e he
      cases e with
      | SaveChat chat => exact absurd he (hnever chat)
      | _ => simp [Effect.isSaveChat]
    rw [hzero]
    simp

theorem C14_no_durable_write_on_failure_witness :
    (Execute failingStreamUseCase scenarioRuntime scenarioInput).2
      = .error "error streaming response: connection reset" ∧
    ((∀ chat, Effect.SaveChat chat ∈ (Execute failingStreamUseCase scenarioRuntime
        scenarioInput).1 → failingStreamUseCase.ChatGateway.SaveChat chat ≠ none) ∧
    ((Execute failingStreamUseCase scenarioRuntime scenarioInput).1.filter
      Effect.isCreateChat).length ≤ 1 ∧
    (∀ chat, Effect.CreateChat chat ∈ (Execute failingStreamUseCase scenarioRuntime
        scenarioInput).1 →
      failingStreamUseCase.ChatGateway.FindChatByID scenarioInput.ChatID
        = .error "chat not found") ∧
    ((Execute failingStreamUseCase scenarioRuntime scenarioInput).1.filter
      Effect.isSaveChat).length ≤ 1 ∧
    (∀ chat, Effect.SaveChat chat ∈ (Execute failingStreamUseCase scenarioRuntime
        scenarioInput).1 →
      (Execute failingStreamUseCase scenarioRuntime scenarioInput).1.getLast?
        = some (Effect.SaveChat chat))) :=
  ⟨by decide,
    C14_no_durable_write_on_failure failingStreamUseCase scenarioRuntime scenarioInput
      "error streaming response: connection reset" (by decide)⟩

/-! ## The remaining claims on the chat aggregate and on creation -/

/-- On an ended chat, no sequence of `AddMessage` and `End` calls changes
anything. -/
theorem runCalls_of_ended (calls : List ChatCall) :
    ∀ chat : Chat, chat.Status = "ended" → chat.runCalls calls = chat := by
  induction calls with
  | nil =>
    intro chat _
    rfl
  | cons call later ih =>
    intro chat hended
    cases call with
    | End =>
      have hsame : chat.End = chat := by
        cases chat
        simp only [Chat.End] at hended ⊢
        simp [hended]
      unfold Chat.runCalls
      rw [hsame]
      exact ih chat hended
    | AddMessage message =>
      have hcall : chat.AddMessage message =
          (chat, Result.error "chat is ended. No more messages allowed") := by
        simp [Chat.AddMessage, hended]
      unfold Chat.runCalls
      rw [hcall]
      exact ih chat hended

/-- C15, `End` is idempotent and irreversible: `End(End(c)) = End(c)`, the
status of `End(c)` is ended, `End` changes no field other than `Status`, and
after `End` no sequence of `AddMessage` and `End` calls changes the chat, so
the status never returns to active. -/
theorem C15_end_idempotent_irreversible (chat : Chat) (calls : List ChatCall) :
    chat.End.End = chat.End ∧
    chat.End.Status = "ended" ∧
    chat.End = { chat with Status := "ended" } ∧
    (chat.End.ID = chat.ID ∧ chat.End.UserID = chat.UserID ∧
      chat.End.InitialSystemMessage = chat.InitialSystemMessage ∧
      chat.End.Messages = chat.Messages ∧ chat.End.ErasedMessages = chat.ErasedMessages ∧
      chat.End.TokenUsage = chat.TokenUsage ∧ chat.End.Config = chat.Config) ∧
    chat.End.runCalls calls = chat.End ∧
    (chat.End.runCalls calls).Status = "ended" ∧
    (chat.End.runCalls calls).Status ≠ "active" := by
  have hrun := runCalls_of_ended calls chat.End rfl
  refine ⟨rfl, rfl, rfl, ⟨rfl, rfl, rfl, rfl, rfl, rfl, rfl⟩, hrun, ?_, ?_⟩
  · rw [hrun]
    rfl
  · rw [hrun]
    show "ended" ≠ "active"
    decide

/-- C16, submitted history: once the chat is located and the user turn is
added, the request `Execute` sends to the completion capability, its only
request, carries exactly the role and content of every message of
`chat.Messages`, in order, as they stand after the user turn was added: what
is left of the previous window after the evictions, then the new user message
last. The sampling parameters sent are the fields of the chat `Config`,
unchanged by the turn. -/
theorem C16_submitted_history (useCase : ChatCompletionUseCase) (rt : Runtime)
    (input : ChatCompletionInputDTO) (located : List Effect) (found chat : Chat)
    (userMessage : Message)
    (hlocate : locateChat useCase rt input = (located, .ok found))
    (huser : NewMessage rt.CountTokens rt.userMessageID rt.userMessageNow "user"
      input.UserMessage found.Config.Model = .ok userMessage)
    (hadd : found.AddMessage userMessage = (chat, .ok ())) :
    ∃ request rest,
      (Execute useCase rt input).1
        = located ++ Effect.CreateChatCompletionStream request :: rest ∧
      (∀ e ∈ located, e.isCompletionRequest = false) ∧
      (∀ e ∈ rest, e.isCompletionRequest = false) ∧
      request.Messages = chat.Messages.map
        (fun message => { Role := message.Role, Content := message.Content }) ∧
      (∃ k, k ≤ found.Messages.length ∧
        chat.Messages = found.Messages.drop k ++ [userMessage] ∧
        chat.ErasedMessages = found.ErasedMessages ++ found.Messages.take k) ∧
      request.Messages.getLast? = some { Role := "user", Content := input.UserMessage } ∧
      chat.Config = found.Config ∧
      request.Model = chat.Config.Model.Name ∧
      request.MaxTokens = chat.Config.MaxTokens ∧
      request.Temperature = chat.Config.Temperature ∧
      request.TopP = chat.Config.TopP ∧
      request.N = chat.Config.N ∧
      request.Stop = chat.Config.Stop ∧
      request.PresencePenalty = chat.Config.PresencePenalty ∧
      request.FrequencyPenalty = chat.Config.FrequencyPenalty ∧
      request.Stream = true := by
  obtain ⟨k, hk, hchat⟩ := AddMessage_ok_shape found userMessage chat hadd
  have hmessages : chat.Messages = found.Messages.drop k ++ [userMessage] := by rw [hchat]
  have hrole : userMessage.Role = "user" ∧ userMessage.Content = input.UserMessage := by
    unfold NewMessage at huser
    simp only at huser
    split at huser
    · exact absurd huser (by simp)
    · have := Result.ok.inj huser
      rw [← this]
      exact ⟨rfl, rfl⟩
  have hlocated : ∀ e ∈ located, e.isCompletionRequest = false := by
    intro e he
    have hloc := locateChat_effects useCase rt input
    rw [hlocate] at hloc
    rcases hloc with h | ⟨_, _, _, h⟩
    · simp only at h
      rw [h] at he
      simp only [List.mem_singleton] at he
      subst he
      rfl
    · simp only at h
      rw [h] at he
      simp only [List.mem_cons, List.mem_singleton, List.not_mem_nil, or_false] at he
      rcases he with rfl | rfl <;> rfl
  have hsent : ∃ rest, (Execute useCase rt input).1
      = located ++ Effect.CreateChatCompletionStream (requestOf chat) :: rest ∧
      ∀ e ∈ rest, e.isSend = true := by
    cases hopen : useCase.OpenAIClient (requestOf chat) with
    | error err =>
      have hopen2 : useCase.OpenAIClient
          { Model := chat.Config.Model.Name,
            Messages := projectMessages chat.Messages,
            MaxTokens := chat.Config.MaxTokens,
            Temperature := chat.Config.Temperature,
            TopP := chat.Config.TopP,
            N := chat.Config.N,
            Stop := chat.Config.Stop,
            PresencePenalty := chat.Config.PresencePenalty,
            FrequencyPenalty := chat.Config.FrequencyPenalty,
            Stream := true } = .error err := hopen
      refine ⟨[], ?_, by simp⟩
      simp only [Execute, hlocate, huser, hadd, hopen2]
      rfl
    | ok res =>
      refine ⟨(recvLoop chat res.ending res.responses "").1, ?_,
        recvLoop_sends chat res.ending res.responses ""⟩
      rw [Execute_of_stream useCase rt input located found chat userMessage res hlocate huser
        hadd hopen]
      simp
  obtain ⟨rest, heffects, hrest⟩ := hsent
  refine ⟨requestOf chat, rest, heffects, hlocated, ?_, rfl, ⟨k, hk, hmessages, by rw [hchat]⟩,
    ?_, by rw [hchat], rfl, rfl, rfl, rfl, rfl, rfl, rfl, rfl, rfl⟩
  · intro e he
    have := hrest e he
    cases e <;> simp_all [Effect.isSend, Effect.isCompletionRequest]
  · simp only [requestOf, projectMessages, hmessages, List.map_append, List.map_cons,
      List.map_nil, List.getLast?_append, List.getLast?_singleton, hrole.1, hrole.2]
    rfl

theorem C16_submitted_history_witness :
    locateChat scenarioUseCase scenarioRuntime scenarioInput
      = ([Effect.FindChatByID "c0"], .ok scenarioChat) ∧
    scenarioChat.AddMessage scenarioUserTurn = (scenarioChatWithUser, .ok ()) ∧
    ∃ request rest,
      (Execute scenarioUseCase scenarioRuntime scenarioInput).1
        = [Effect.FindChatByID "c0"] ++ Effect.CreateChatCompletionStream request :: rest ∧
      (∀ e ∈ [Effect.FindChatByID "c0"], e.isCompletionRequest = false) ∧
      (∀ e ∈ rest, e.isCompletionRequest = false) ∧
      request.Messages = scenarioChatWithUser.Messages.map
        (fun message => { Role := message.Role, Content := message.Content }) ∧
      (∃ k, k ≤ scenarioChat.Messages.length ∧
        scenarioChatWithUser.Messages = scenarioChat.Messages.drop k ++ [scenarioUserTurn] ∧
        scenarioChatWithUser.ErasedMessages
          = scenarioChat.ErasedMessages ++ scenarioChat.Messages.take k) ∧
      request.Messages.getLast? = some { Role := "user", Content := scenarioInput.UserMessage } ∧
      scenarioChatWithUser.Config = scenarioChat.Config ∧
      request.Model = scenarioChatWithUser.Config.Model.Name ∧
      request.MaxTokens = scenarioChatWithUser.Config.MaxTokens ∧
      request.Temperature = scenarioChatWithUser.Config.Temperature ∧
      request.TopP = scenarioChatWithUser.Config.TopP ∧
      request.N = scenarioChatWithUser.Config.N ∧
      request.Stop = scenarioChatWithUser.Config.Stop ∧
      request.PresencePenalty = scenarioChatWithUser.Config.PresencePenalty ∧
      request.FrequencyPenalty = scenarioChatWithUser.Config.FrequencyPenalty ∧
      request.Stream = true :=
  ⟨by decide, by decide,
    C16_submitted_history scenarioUseCase scenarioRuntime scenarioInput
      [Effect.FindChatByID "c0"] scenarioChat scenarioChatWithUser scenarioUserTurn
      (by decide) (by decide) (by decide)⟩

/-- C17, eviction loop safety and termination: on an active chat whose
`TokenUsage` is the sum of the `Tokens` of its `Messages`, for a message with
`Tokens ≤ MaxTokens`, `AddMessage` returns without error after `k` evictions
with `k ≤ len(Messages)`; it never reads `Messages[0]` of an empty window
(that read is the panic of the model). The bounds `0 ≤ Tokens` of the claim
are not needed, and the wrapping of the Go addition does not matter: on the
emptied window the test is `m.Tokens + 0 ≤ MaxTokens`. -/
theorem C17_eviction_loop_safe (chat : Chat) (message : Message)
    (hactive : chat.Status = "active")
    (husage : chat.TokenUsage.val = sumTokens chat.Messages)
    (hfits : message.Tokens ≤ chat.Config.Model.MaxTokens) :
    ∃ k after, k ≤ chat.Messages.length ∧
      chat.AddMessage message = (after, .ok ()) ∧
      after.ErasedMessages = chat.ErasedMessages ++ chat.Messages.take k ∧
      after.Messages = chat.Messages.drop k ++ [message] := by
  have hended : ¬ chat.Status = "ended" := by
    rw [hactive]
    decide
  unfold Chat.AddMessage
  rw [if_neg hended]
  rcases addMessageLoop_exact chat message chat.Messages chat.ErasedMessages chat.TokenUsage
    (wrapped_of_exact chat husage) with ⟨k, hk, _, _, hrun⟩ | ⟨hnone, _⟩
  · exact ⟨k, _, hk, hrun, rfl, rfl⟩
  · have hlast := hnone chat.Messages.length (le_refl _)
    rw [List.drop_length, sumTokens_nil, zero_add, goInt_wrapInt_val] at hlast
    exact absurd ((goInt_le_iff _ _).mp hfits) hlast

theorem C17_eviction_loop_safe_witness :
    scenarioChatA.Status = "active" ∧
    scenarioChatA.TokenUsage.val = sumTokens scenarioChatA.Messages ∧
    userTurn25.Tokens ≤ scenarioChatA.Config.Model.MaxTokens ∧
    ∃ k after, k ≤ scenarioChatA.Messages.length ∧
      scenarioChatA.AddMessage userTurn25 = (after, .ok ()) ∧
      after.ErasedMessages = scenarioChatA.ErasedMessages ++ scenarioChatA.Messages.take k ∧
      after.Messages = scenarioChatA.Messages.drop k ++ [userTurn25] :=
  ⟨by decide, by decide, by decide,
    C17_eviction_loop_safe scenarioChatA userTurn25 (by decide) (by decide) (by decide)⟩

/-- C18, conservation: when `AddMessage` succeeds on message `m`,
`ErasedMessages` followed by `Messages` afterwards is `ErasedMessages`
followed by `Messages` before, followed by `m`: no turn is lost, duplicated or
reordered; and `ErasedMessages` afterwards is `ErasedMessages` before with
messages appended. -/
theorem C18_conservation (chat : Chat) (message : Message) (after : Chat)
    (hok : chat.AddMessage message = (after, .ok ())) :
    after.ErasedMessages ++ after.Messages
      = chat.ErasedMessages ++ chat.Messages ++ [message] ∧
    ∃ evicted, after.ErasedMessages = chat.ErasedMessages ++ evicted := by
  obtain ⟨k, _, hafter⟩ := AddMessage_ok_shape chat message after hok
  rw [hafter]
  refine ⟨?_, chat.Messages.take k, rfl⟩
  simp only [List.append_assoc]
  rw [← List.append_assoc (chat.Messages.take k), List.take_append_drop]

theorem C18_conservation_witness :
    scenarioChatA.AddMessage userTurn25 = (scenarioChatB, .ok ()) ∧
    (scenarioChatB.ErasedMessages ++ scenarioChatB.Messages
        = scenarioChatA.ErasedMessages ++ scenarioChatA.Messages ++ [userTurn25] ∧
      ∃ evicted, scenarioChatB.ErasedMessages = scenarioChatA.ErasedMessages ++ evicted) :=
  ⟨by decide, C18_conservation scenarioChatA userTurn25 scenarioChatB (by decide)⟩

/-- A chat returned by `CreateNewChat`, field by field. -/
theorem CreateNewChat_ok (rt : Runtime) (input : ChatCompletionInputDTO) (chat : Chat)
    (hnew : CreateNewChat rt input = .ok chat) :
    chat.Config =
      { Model := { Name := input.Config.Mode, MaxTokens := input.Config.MaxTokens },
        Temperature := input.Config.Temperature,
        TopP := input.Config.TopP,
        N := input.Config.N,
        Stop := input.Config.Stop,
        MaxTokens := input.Config.MaxTokens,
        PresencePenalty := input.Config.PresencePenalty,
        FrequencyPenalty := input.Config.FrequencyPenalty } ∧
    chat.Messages =
      [{ ID := rt.systemMessageID, Role := "system",
         Content := input.Config.InitialSystemMessage,
         Tokens := rt.CountTokens input.Config.Mode input.Config.InitialSystemMessage,
         Model := none, CreatedAt := rt.systemMessageNow }] ∧
    chat.TokenUsage = rt.CountTokens input.Config.Mode input.Config.InitialSystemMessage := by
  unfold CreateNewChat at hnew
  simp only at hnew
  split at hnew
  · exact absurd hnew (by simp)
  · exact absurd hnew (by simp)
  · next initialMessage hmessage =>
    have hinitial : initialMessage =
        { ID := rt.systemMessageID, Role := "system",
          Content := input.Config.InitialSystemMessage,
          Tokens := rt.CountTokens input.Config.Mode input.Config.InitialSystemMessage,
          Model := none, CreatedAt := rt.systemMessageNow } := by
      unfold NewMessage at hmessage
      simp only at hmessage
      split at hmessage
      · exact absurd hmessage (by simp)
      · exact (Result.ok.inj hmessage).symm
    split at hnew
    · exact absurd hnew (by simp)
    · exact absurd hnew (by simp)
    · next built hbuilt =>
      have hchat : built = chat := Result.ok.inj hnew
      subst hchat
      rw [NewChat_ok _ _ _ _ _ hbuilt, hinitial]
      exact ⟨rfl, rfl, rfl⟩

/-- C19, budget source of a new chat: a chat returned by `CreateNewChat` has
`Config.Model.MaxTokens` equal to `input.Config.MaxTokens`, the value also
stored as `Config.MaxTokens`; `input.Config.ModelMaxToken` is not read:
replacing it by any value gives the same result, and under any other
identifiers and clock readings a chat with the same model and config, the
same token usage and messages of the same role, content and tokens. -/
theorem C19_budget_source (rt : Runtime) (input : ChatCompletionInputDTO) (chat : Chat)
    (hnew : CreateNewChat rt input = .ok chat) :
    chat.Config.Model.MaxTokens = input.Config.MaxTokens ∧
    chat.Config.MaxTokens = input.Config.MaxTokens ∧
    (∀ modelMaxToken : GoInt,
      CreateNewChat rt
        { input with Config := { input.Config with ModelMaxToken := modelMaxToken } }
        = .ok chat) ∧
    (∀ (other : Runtime) (modelMaxToken : GoInt) (chat2 : Chat),
      other.CountTokens = rt.CountTokens →
      CreateNewChat other
        { input with Config := { input.Config with ModelMaxToken := modelMaxToken } }
        = .ok chat2 →
      chat2.Config = chat.Config ∧ chat2.TokenUsage = chat.TokenUsage ∧
      chat2.Messages.map (fun m => (m.Role, m.Content, m.Tokens))
        = chat.Messages.map (fun m => (m.Role, m.Content, m.Tokens))) := by
  obtain ⟨hconfig, hmessages, husage⟩ := CreateNewChat_ok rt input chat hnew
  refine ⟨by rw [hconfig], by rw [hconfig], fun _ => hnew, ?_⟩
  intro other modelMaxToken chat2 hcount hnew2
  obtain ⟨hconfig2, hmessages2, husage2⟩ := CreateNewChat_ok other _ chat2 hnew2
  simp only at hconfig2 hmessages2 husage2
  refine ⟨by rw [hconfig, hconfig2], by rw [husage, husage2, hcount], ?_⟩
  rw [hmessages, hmessages2, hcount]
  rfl

theorem C19_budget_source_witness :
    CreateNewChat scenarioRuntime scenarioInput = .ok createdChat ∧
    scenarioInput.Config.ModelMaxToken ≠ scenarioInput.Config.MaxTokens ∧
    (createdChat.Config.Model.MaxTokens = scenarioInput.Config.MaxTokens ∧
    createdChat.Config.MaxTokens = scenarioInput.Config.MaxTokens ∧
    (∀ modelMaxToken : GoInt,
      CreateNewChat scenarioRuntime
        { scenarioInput with
          Config := { scenarioInput.Config with ModelMaxToken := modelMaxToken } }
        = .ok createdChat) ∧
    (∀ (other : Runtime) (modelMaxToken : GoInt) (chat2 : Chat),
      other.CountTokens = scenarioRuntime.CountTokens →
      CreateNewChat other
        { scenarioInput with
          Config := { scenarioInput.Config with ModelMaxToken := modelMaxToken } }
        = .ok chat2 →
      chat2.Config = createdChat.Config ∧ chat2.TokenUsage = createdChat.TokenUsage ∧
      chat2.Messages.map (fun m => (m.Role, m.Content, m.Tokens))
        = createdChat.Messages.map (fun m => (m.Role, m.Content, m.Tokens)))) :=
  ⟨by decide, by decide,
    C19_budget_source scenarioRuntime scenarioInput createdChat (by decide)⟩
